import Mathlib

/-!
Verification of the live telemetry reconciliation engine of the cms_simulator
dashboard.  The definitions below are a shallow embedding of the TypeScript
sources:

* `src/features/simulators/SimulatorDetailPage.tsx`
  (`resolveTimestamp`, `normalizeSample`, `appendSample`, `trimWindow`,
   `mergeSessionSnapshots`, and the `handleSimulatorEvent` branches for
   `meter.sample`, `session.started`, `session.stopped`, `simulator.state`);
* `src/hooks/useWebSocketChannel.ts`
  (`isUnauthorizedEvent`, `scheduleReconnect`, the `onopen`/`onclose`
   handlers).

JavaScript numbers are modelled as exact rationals, with the non-finite
values (`NaN`, `Infinity`, `-Infinity`) represented explicitly where the
source lets them flow through (`typeof x === "number"` checks).  ISO
timestamp strings are modelled by the epoch-milliseconds value they denote
(`Date.parse` / `toISOString` is injective on that value), and `Date.now()`
is an explicit `now` parameter.
-/

set_option maxRecDepth 20000

attribute [local semireducible] Rat.sub Rat.add Rat.mul Rat.inv Rat.ofScientific

/-- Model of a JavaScript `number`: either a finite value (an exact rational)
or one of the three non-finite values. -/
inductive JsNum where
  | nan
  | inf
  | ninf
  | fin (q : ℚ)
deriving DecidableEq, Repr

/-- Model of `Number.isFinite(x)` for a defined number. -/
def JsNum.isFinite : JsNum → Bool
  | .fin _ => true
  | _ => false

/-- Model of `Number.isFinite(x) ? x : 0` (the final output guards of
`normalizeSample`). -/
def JsNum.finiteOrZero : JsNum → ℚ
  | .fin q => q
  | _ => 0

/-- Model of `Number.isFinite(x) ? x : undefined`. -/
def JsNum.toFiniteOpt : JsNum → Option ℚ
  | .fin q => some q
  | _ => none

/-- Model of `Number.isFinite(x) ? Number(x) : undefined` applied to an
optional field (`undefined` is `none`; `Number.isFinite(undefined)` is
`false`). -/
def jsFinite : Option JsNum → Option ℚ
  | some (.fin q) => some q
  | _ => none

/-- Model of `x * k / v` on JavaScript numbers for the use site
`computedPower * 1000 / voltage`, where `k` and `v` are finite and positive
(the source guards `voltage > 0`): a finite operand gives a finite result,
and each non-finite operand is preserved (multiplying or dividing `NaN` or
`±Infinity` by a positive finite number keeps its class). -/
def JsNum.mulDivPos (x : JsNum) (k v : ℚ) : JsNum :=
  match x with
  | .fin q => .fin (q * k / v)
  | .nan => .nan
  | .inf => .inf
  | .ninf => .ninf

/-- Model of `Number(x.toFixed(d))`: round to `d` decimal digits.  The
ECMAScript `toFixed` picks the closest decimal and breaks ties towards the
larger value, which is exactly Mathlib's `round` (round half up).  Non-finite
values survive the round trip unchanged. -/
def roundTo (d : ℕ) (q : ℚ) : ℚ :=
  ((round (q * 10 ^ d) : ℤ) : ℚ) / 10 ^ d

/-- Rounding lifted to JavaScript numbers (`toFixed` of `NaN`/`±Infinity`
re-parses to the same value). -/
def jsRound (d : ℕ) : JsNum → JsNum
  | .fin q => .fin (roundTo d q)
  | x => x

/-- Model of the `timestamp?: number | string` input of `resolveTimestamp`:
a JavaScript number, a string together with its `Date.parse` result (`none`
for an empty/whitespace-only or unparseable string), or `undefined`. -/
inductive TsInput where
  | num (v : JsNum)
  | str (parsed : Option ℚ)
  | undef
deriving DecidableEq, Repr

/-- Result shape of `resolveTimestamp`: the epoch value and the ISO string it
formats to (modelled by the same epoch value). -/
structure ResolvedTs where
  timestamp : ℚ
  isoTimestamp : ℚ
deriving DecidableEq, Repr

/-- Embedding of `resolveTimestamp` (SimulatorDetailPage.tsx): a finite
numeric timestamp is used as is, a parseable string is parsed, and everything
else falls back to `Date.now()` (the explicit `now` argument). -/
def resolveTimestamp (now : ℚ) : TsInput → ResolvedTs
  | .num (.fin q) => ⟨q, q⟩
  | .num _ => ⟨now, now⟩
  | .str (some parsed) => ⟨parsed, parsed⟩
  | .str none => ⟨now, now⟩
  | .undef => ⟨now, now⟩

/-- Embedding of the `RawSampleInput` type (SimulatorDetailPage.tsx).
Optional numeric fields are `Option JsNum` (`none` is `undefined`). -/
structure RawSampleInput where
  connectorId : ℕ
  timestamp : TsInput := .undef
  valueWh : Option JsNum := none
  deltaWh : Option JsNum := none
  intervalSeconds : Option JsNum := none
  powerKw : Option JsNum := none
  currentA : Option JsNum := none
  voltageV : Option JsNum := none
  energyKwh : Option JsNum := none
  transactionId : Option String := none
deriving DecidableEq, Repr

/-- Embedding of the `NormalizedSample` type (SimulatorDetailPage.tsx).  The
required numeric outputs are plain rationals: the source guards each of them
with `Number.isFinite` before storing. -/
structure NormalizedSample where
  connectorId : ℕ
  timestamp : ℚ
  isoTimestamp : ℚ
  valueWh : ℚ
  powerKw : ℚ
  currentA : ℚ
  energyKwh : ℚ
  deltaWh : Option ℚ := none
  intervalSeconds : Option ℚ := none
  voltageV : Option ℚ := none
  transactionId : Option String := none
deriving DecidableEq, Repr

/-- The `DEFAULT_VOLTAGE` constant (400 V). -/
def DEFAULT_VOLTAGE : ℚ := 400

/-- The `valueWh` computation of `normalizeSample`: a finite incoming
register is clamped from below by the previous sample's register ("Clamp to
previous value to avoid backward energy jumps"); a missing register falls
back to the previous register, or `0`. -/
def derivedValueWh (input : RawSampleInput) (previous : Option NormalizedSample) : ℚ :=
  match jsFinite input.valueWh with
  | some rawWh =>
    match previous with
    | some p => if rawWh < p.valueWh then p.valueWh else rawWh
    | none => rawWh
  | none => (previous.map NormalizedSample.valueWh).getD 0

/-- The `rawEnergyKwh` computation of `normalizeSample`. -/
def derivedEnergyKwh (input : RawSampleInput) (previous : Option NormalizedSample) : ℚ :=
  (jsFinite input.energyKwh).getD (derivedValueWh input previous / 1000)

/-- The `deltaWh` computation of `normalizeSample`: a finite input delta, or
the register difference against the previous sample, or `undefined`. -/
def derivedDeltaWh (input : RawSampleInput) (previous : Option NormalizedSample) : Option ℚ :=
  match jsFinite input.deltaWh with
  | some d => some d
  | none => previous.map (fun p => derivedValueWh input previous - p.valueWh)

/-- The `intervalSeconds` computation of `normalizeSample` (`ts` is the
resolved timestamp of the incoming sample). -/
def derivedIntervalSeconds (ts : ℚ) (input : RawSampleInput)
    (previous : Option NormalizedSample) : Option ℚ :=
  match jsFinite input.intervalSeconds with
  | some i => some i
  | none => previous.map (fun p => (ts - p.timestamp) / 1000)

/-- The `computedPower` computation of `normalizeSample`: a given power field
(`typeof input.powerKw === "number"`, so non-finite numbers pass) wins;
otherwise power is derived from a truthy delta (defined and nonzero), a
truthy and positive interval; otherwise the previous power is held (or 0). -/
def computedPower (ts : ℚ) (input : RawSampleInput)
    (previous : Option NormalizedSample) : JsNum :=
  match input.powerKw with
  | some pk => pk
  | none =>
    match derivedDeltaWh input previous, derivedIntervalSeconds ts input previous with
    | some d, some i =>
      if d ≠ 0 ∧ i ≠ 0 ∧ 0 < i then .fin ((d / 1000) / (i / 3600))
      else .fin ((previous.map NormalizedSample.powerKw).getD 0)
    | _, _ => .fin ((previous.map NormalizedSample.powerKw).getD 0)

/-- The `voltage` computation of `normalizeSample`: a finite input voltage or
the 400 V default. -/
def resolvedVoltage (input : RawSampleInput) : ℚ :=
  (jsFinite input.voltageV).getD DEFAULT_VOLTAGE

/-- The `computedCurrent` computation of `normalizeSample`: a given current
field wins; otherwise current is derived as `computedPower * 1000 / voltage`
when the voltage is positive; otherwise the previous current is held (or 0). -/
def computedCurrent (ts : ℚ) (input : RawSampleInput)
    (previous : Option NormalizedSample) : JsNum :=
  match input.currentA with
  | some c => c
  | none =>
    if 0 < resolvedVoltage input then
      (computedPower ts input previous).mulDivPos 1000 (resolvedVoltage input)
    else .fin ((previous.map NormalizedSample.currentA).getD 0)

/-- Embedding of `normalizeSample` (SimulatorDetailPage.tsx).  `now` models
`Date.now()` for the timestamp fallback.  The rounded outputs are guarded by
`Number.isFinite(...) ? ... : 0`, and the rounded voltage (always finite
here) ends in the optional `voltageV` field. -/
def normalizeSample (now : ℚ) (input : RawSampleInput)
    (previous : Option NormalizedSample) : NormalizedSample :=
  let r := resolveTimestamp now input.timestamp
  { connectorId := input.connectorId
    timestamp := r.timestamp
    isoTimestamp := r.isoTimestamp
    valueWh := derivedValueWh input previous
    powerKw := (jsRound 2 (computedPower r.timestamp input previous)).finiteOrZero
    currentA := (jsRound 2 (computedCurrent r.timestamp input previous)).finiteOrZero
    energyKwh := (jsRound 3 (.fin (derivedEnergyKwh input previous))).finiteOrZero
    deltaWh := derivedDeltaWh input previous
    intervalSeconds := derivedIntervalSeconds r.timestamp input previous
    voltageV := (jsRound 1 (.fin (resolvedVoltage input))).toFiniteOpt
    transactionId := input.transactionId }

/-- Embedding of `appendSample` (SimulatorDetailPage.tsx): an upsert by
timestamp.  `findIndex` is `findIdx?`; the `-1` miss branch appends and
re-sorts by timestamp (`Array.prototype.sort` with the numeric comparator is
a stable sort, modelled by `mergeSort`). -/
def appendSample (samples : List NormalizedSample)
    (sample : NormalizedSample) : List NormalizedSample :=
  match samples.findIdx? (fun item => decide (item.timestamp = sample.timestamp)) with
  | some i => samples.set i sample
  | none => (samples ++ [sample]).mergeSort (fun a b => decide (a.timestamp ≤ b.timestamp))

/-- The `MAX_POINTS` constant (720 chart points). -/
def MAX_POINTS : ℕ := 720

/-- Helper for the downsampling loop of `trimWindow`: `k` counts how many
elements remain to be skipped before the next kept element. -/
def strideAux {α : Type} (stride : ℕ) : ℕ → List α → List α
  | _, [] => []
  | 0, x :: xs => x :: strideAux stride (stride - 1) xs
  | k + 1, _ :: xs => strideAux stride k xs

/-- Model of the downsampling loop of `trimWindow`
(`for (index = 0; index < filtered.length; index += stride)`): keep the head
and every `stride`-th element after it. -/
def strideTake {α : Type} (stride : ℕ) (l : List α) : List α :=
  strideAux stride 0 l

lemma strideAux_eq_drop {α : Type} (stride : ℕ) :
    ∀ (l : List α) (k : ℕ), strideAux stride k l = strideTake stride (l.drop k) := by
  intro l
  induction l with
  | nil => intro k; cases k <;> rfl
  | cons x xs ih =>
    intro k
    cases k with
    | zero => rfl
    | succ k =>
      rw [List.drop_succ_cons, ← ih k]
      rfl

/-- The recursion of the downsampling loop: keep the head, then skip
`stride − 1` elements. -/
lemma strideTake_cons {α : Type} (stride : ℕ) (x : α) (xs : List α) :
    strideTake stride (x :: xs) = x :: strideTake stride (xs.drop (stride - 1)) := by
  show strideAux stride 0 (x :: xs) = _
  rw [strideAux, strideAux_eq_drop]

lemma strideTake_nil {α : Type} (stride : ℕ) : strideTake stride ([] : List α) = [] :=
  rfl

/-- Embedding of `trimWindow` (SimulatorDetailPage.tsx): drop samples older
than `latest − windowMs`, then if more than `MAX_POINTS` remain, keep every
`stride`-th sample (`stride = Math.ceil(len / MAX_POINTS)`), re-appending the
last filtered sample when the stride skipped it. -/
def trimWindow (samples : List NormalizedSample) (windowMs : ℚ) : List NormalizedSample :=
  match samples.getLast? with
  | none => samples
  | some lastSample =>
    let cutoff := lastSample.timestamp - windowMs
    let filtered := samples.filter (fun s => decide (cutoff ≤ s.timestamp))
    if filtered.length ≤ MAX_POINTS then filtered
    else
      let stride := (filtered.length + (MAX_POINTS - 1)) / MAX_POINTS
      let reduced := strideTake stride filtered
      if reduced.getLast? = filtered.getLast? then reduced
      else reduced ++ filtered.getLast?.toList

/-- The `TELEMETRY_WINDOW_MS` constant (10 minutes). -/
def TELEMETRY_WINDOW_MS : ℚ := 10 * 60 * 1000

/-- One delivery step of the live pipeline (the `meter.sample` handler and
the history loaders): normalise the raw reading against the series' current
last sample (`samples.at(-1)`) and upsert it into the series. -/
def deliver (now : ℚ) (samples : List NormalizedSample)
    (raw : RawSampleInput) : List NormalizedSample :=
  appendSample samples (normalizeSample now raw samples.getLast?)

/-- Strictly increasing timestamps: the Connector Series invariant. -/
def sortedByTs (s : List NormalizedSample) : Prop :=
  s.Pairwise (fun a b => a.timestamp < b.timestamp)

/-- The cumulative register is non-decreasing along the series. -/
def valuesMonotone (s : List NormalizedSample) : Prop :=
  s.Chain' (fun a b => a.valueWh ≤ b.valueWh)

instance : DecidablePred sortedByTs := fun s =>
  inferInstanceAs (Decidable (s.Pairwise _))

/-- Executable check for `valuesMonotone`. -/
def valuesMonotoneB : List NormalizedSample → Bool
  | [] => true
  | [_] => true
  | a :: b :: rest => decide (a.valueWh ≤ b.valueWh) && valuesMonotoneB (b :: rest)

lemma valuesMonotone_iff : ∀ s : List NormalizedSample,
    valuesMonotone s ↔ valuesMonotoneB s = true
  | [] => by simp [valuesMonotone, valuesMonotoneB]
  | [a] => by simp [valuesMonotone, valuesMonotoneB]
  | a :: b :: rest => by
    rw [valuesMonotone, List.chain'_cons, valuesMonotoneB]
    rw [← valuesMonotone]
    rw [valuesMonotone_iff (b :: rest)]
    simp

instance : DecidablePred valuesMonotone := fun s =>
  decidable_of_iff (valuesMonotoneB s = true) (valuesMonotone_iff s).symm

/-- Embedding of the `SessionRuntime` type (SimulatorDetailPage.tsx).  ISO
timestamp strings are modelled by their epoch value; `number | null |
undefined` fields collapse to `Option ℚ`. -/
structure SessionRuntime where
  connectorId : ℕ
  transactionId : Option String := none
  transactionKey : Option String := none
  idTag : Option String := none
  startedAt : Option ℚ := none
  completedAt : Option ℚ := none
  updatedAt : Option ℚ := none
  state : String
  meterStartWh : Option ℚ := none
  meterStopWh : Option ℚ := none
  pricePerKwh : Option ℚ := none
  maxKw : Option ℚ := none
  cmsSessionId : Option ℕ := none
  cmsTransactionKey : Option String := none
  finalSample : Option NormalizedSample := none
  lastSampleAt : Option ℚ := none
deriving DecidableEq, Repr

/-- Embedding of one REST `SimulatedSession` row as consumed by
`mergeSessionSnapshots`.  `connectorNumber` is the result of
`resolveConnectorNumber(session)` (`none` models `null`), and
`canonicalTransactionId` the result of
`pickCanonicalTransactionId(session.cms_transaction_key)`; both helpers are
lookup/format functions whose outputs we carry directly. -/
structure SessionObs where
  connectorNumber : Option ℕ := none
  canonicalTransactionId : Option String := none
  started_at : Option ℚ := none
  created_at : Option ℚ := none
  completed_at : Option ℚ := none
  updated_at : Option ℚ := none
  meter_start_wh : Option ℚ := none
  meter_stop_wh : Option ℚ := none
  stateField : Option String := none
  id_tag : Option String := none
  cms_transaction : Option ℕ := none
deriving DecidableEq, Repr

/-- The event time an observation carries into the recency check of
`mergeSessionSnapshots`: `session.updated_at ?? session.completed_at ??
session.started_at ?? session.created_at` (before the fallback to the
existing runtime's own `updatedAt`). -/
def obsEventTime (s : SessionObs) : Option ℚ :=
  s.updated_at <|> s.completed_at <|> s.started_at <|> s.created_at

/-- The stale-start guard of `mergeSessionSnapshots`: skip the row when the
existing runtime has a start time and the candidate start is strictly older. -/
def skipByStartCheck (existing : Option SessionRuntime) (startedAt : Option ℚ) : Bool :=
  match existing, existing.bind SessionRuntime.startedAt, startedAt with
  | some _, some existingStart, some candidateStart => decide (candidateStart < existingStart)
  | _, _, _ => false

/-- The recency guard of `mergeSessionSnapshots`: skip the row when the
existing runtime has an `updatedAt` and the candidate event time is strictly
older. -/
def skipByUpdatedCheck (existing : Option SessionRuntime) (candidateUpdatedAt : Option ℚ) : Bool :=
  match existing, existing.bind SessionRuntime.updatedAt, candidateUpdatedAt with
  | some _, some existingUpdated, some candidateUpdated =>
    decide (candidateUpdated < existingUpdated)
  | _, _, _ => false

/-- Embedding of the per-row body of `mergeSessionSnapshots`
(SimulatorDetailPage.tsx, lines 1055–1118) merging one REST session row into
the per-connector runtime map.  `price` models `data?.price_per_kwh` and
`connectorMaxKw` models `simulatorConnectorByPk.get(session.connector)?.max_kw`.
A row whose connector does not resolve (`!connectorId`, i.e. `null` or `0`)
is dropped; a candidate whose start or event time is older than the stored
one is dropped; otherwise the runtime is rebuilt field by field with
`??`-fallbacks to the existing record. -/
def mergeSessionSnapshot (price : Option ℚ) (connectorMaxKw : Option ℚ)
    (next : ℕ → Option SessionRuntime) (session : SessionObs) :
    ℕ → Option SessionRuntime :=
  match session.connectorNumber with
  | none => next
  | some connectorId =>
    if connectorId = 0 then next
    else
      let existing := next connectorId
      let transactionId := session.canonicalTransactionId
      let startedAt := session.started_at <|> session.created_at <|>
        existing.bind SessionRuntime.startedAt
      let completedAt := session.completed_at <|> existing.bind SessionRuntime.completedAt
      let meterStartWh := session.meter_start_wh <|> existing.bind SessionRuntime.meterStartWh
      let meterStopWh := session.meter_stop_wh <|> existing.bind SessionRuntime.meterStopWh
      let state := (session.stateField <|> existing.map SessionRuntime.state).getD "idle"
      if skipByStartCheck existing startedAt then next
      else
        let candidateUpdatedAt := obsEventTime session <|> existing.bind SessionRuntime.updatedAt
        if skipByUpdatedCheck existing candidateUpdatedAt then next
        else
          Function.update next connectorId (some
            { connectorId := connectorId
              transactionId := transactionId <|> existing.bind SessionRuntime.transactionId
              transactionKey := transactionId <|> existing.bind SessionRuntime.transactionKey
              cmsTransactionKey := transactionId <|> existing.bind SessionRuntime.cmsTransactionKey
              cmsSessionId := session.cms_transaction <|> existing.bind SessionRuntime.cmsSessionId
              idTag := session.id_tag <|> existing.bind SessionRuntime.idTag
              startedAt := startedAt
              completedAt := completedAt
              updatedAt := candidateUpdatedAt <|> existing.bind SessionRuntime.updatedAt
              state := state
              meterStartWh := meterStartWh
              meterStopWh := meterStopWh
              pricePerKwh := price <|> existing.bind SessionRuntime.pricePerKwh
              maxKw := connectorMaxKw <|> existing.bind SessionRuntime.maxKw
              finalSample := none
              lastSampleAt := none })

/-- The `MIN_RECONNECT_DELAY` constant of useWebSocketChannel.ts (1000 ms). -/
def MIN_RECONNECT_DELAY : ℚ := 1000

/-- The jitter constant of useWebSocketChannel.ts (source name ends in the
letters I and O, hence the camel-case Lean name): ±35 % symmetric jitter. -/
def jitterRatio : ℚ := 35 / 100

/-- The reconnect-delay options of `useWebSocketChannel`. -/
structure ChannelConfig where
  reconnectDelayMs : Option ℚ := none
  maxReconnectDelayMs : Option ℚ := none
deriving DecidableEq, Repr

/-- `baseDelay = Math.max(reconnectDelayMs ?? MIN_RECONNECT_DELAY,
MIN_RECONNECT_DELAY)`. -/
def baseDelay (cfg : ChannelConfig) : ℚ :=
  max (cfg.reconnectDelayMs.getD MIN_RECONNECT_DELAY) MIN_RECONNECT_DELAY

/-- `maxDelay = Math.max(maxReconnectDelayMs ?? baseDelay * 10, baseDelay)`. -/
def maxDelay (cfg : ChannelConfig) : ℚ :=
  max (cfg.maxReconnectDelayMs.getD (baseDelay cfg * 10)) (baseDelay cfg)

/-- The delay computed by `scheduleReconnect` from the current value of
`reconnectDelayRef` and one `Math.random()` draw `rand ∈ [0,1)`:
`delayBase = min(ref, maxDelay)`, `jitter = delayBase * jitterRatio`,
`delay = max(0, delayBase + (rand * jitter * 2 - jitter))`. -/
def scheduledDelay (cfg : ChannelConfig) (ref : ℚ) (rand : ℚ) : ℚ :=
  let delayBase := min ref (maxDelay cfg)
  let jitter := delayBase * jitterRatio
  max 0 (delayBase + (rand * jitter * 2 - jitter))

/-- The update of `reconnectDelayRef` performed inside the retry timer:
`reconnectDelayRef.current = Math.min(delay * 2, maxDelay)`. -/
def nextReconnectRef (cfg : ChannelConfig) (delay : ℚ) : ℚ :=
  min (delay * 2) (maxDelay cfg)

/-- Model of `socket.onopen`: the backoff reference resets to the base
delay (`reconnectDelayRef.current = baseDelay`). -/
def onOpenReset (cfg : ChannelConfig) (_ref : ℚ) : ℚ :=
  baseDelay cfg

/-- The value of `reconnectDelayRef` seen by the `(n+1)`-st consecutive
scheduling (the ref starts at `baseDelay`, which is also its value right
after any successful open). -/
def reconnectRefAt (cfg : ChannelConfig) (rand : ℕ → ℚ) : ℕ → ℚ
  | 0 => baseDelay cfg
  | n + 1 => nextReconnectRef cfg (scheduledDelay cfg (reconnectRefAt cfg rand n) (rand n))

/-- The `(n+1)`-st consecutive scheduled reconnect delay (`n = 0` is the
first failure after activation or after a successful open). -/
def nthScheduledDelay (cfg : ChannelConfig) (rand : ℕ → ℚ) (n : ℕ) : ℚ :=
  scheduledDelay cfg (reconnectRefAt cfg rand n) (rand n)

/-- The `AUTH_CLOSE_CODES` set of useWebSocketChannel.ts. -/
def AUTH_CLOSE_CODES : List ℕ := [4001, 4003, 4400, 4401, 4403]

/-- Embedding of a transport close event as consumed by
`isUnauthorizedEvent`: `hasCode` models `typeof event.code === "number"`
(the `isCloseEvent` guard) and the two flags model
`reason.toLowerCase().includes("auth")` / `.includes("token")`. -/
structure WsCloseEvent where
  hasCode : Bool := true
  code : ℕ := 1000
  reasonHasAuth : Bool := false
  reasonHasToken : Bool := false
deriving DecidableEq, Repr

/-- Embedding of `isUnauthorizedEvent` (useWebSocketChannel.ts). -/
def isUnauthorizedEvent (e : WsCloseEvent) : Bool :=
  if !e.hasCode then false
  else if AUTH_CLOSE_CODES.contains e.code || e.code == 1008 || e.code == 403 then true
  else e.reasonHasAuth || e.reasonHasToken

/-- The possible results of invoking `onUnauthorized` (`void | boolean |
Promise<void | boolean>`, or no handler registered, or a rejected promise). -/
inductive RefreshOutcome where
  | noHandler
  | syncBool (b : Bool)
  | syncUndefined
  | asyncResolved (v : Option Bool)
  | asyncRejected
deriving DecidableEq, Repr

/-- Channel status values of useWebSocketChannel.ts. -/
inductive WsStatus where
  | idle
  | connecting
  | wsOpen
  | closed
  | wsError
deriving DecidableEq, Repr

/-- The context `scheduleReconnect` consults: the flags captured by the hook
plus whether a retry timer is already pending. -/
structure CloseContext where
  manualClose : Bool := false
  autoReconnect : Bool := true
  shouldConnect : Bool := true
  timerPending : Bool := false
deriving DecidableEq, Repr

/-- Whether a call to `scheduleReconnect` actually arms a retry timer
(`if (!autoReconnect || reconnectTimer.current || !shouldConnect) return`). -/
def scheduleReconnectFires (ctx : CloseContext) : Bool :=
  ctx.autoReconnect && !ctx.timerPending && ctx.shouldConnect

/-- The observable outcome of one `socket.onclose` callback. -/
structure CloseResult where
  status : WsStatus
  handlerInvoked : Bool
  reconnectScheduled : Bool
deriving DecidableEq, Repr

/-- Embedding of the `socket.onclose` handler (useWebSocketChannel.ts,
lines 159–195).  The status is set to `closed`; a manual close stops there;
an unauthorized close routes through `onUnauthorized`: a synchronous `false`
or a promise resolving to `false` suppresses the reconnect, every other
outcome — including a rejected promise, via `.catch(() => triggerReconnect())`
— falls through to `scheduleReconnect`; a non-auth close schedules a
reconnect directly. -/
def handleClose (ctx : CloseContext) (e : WsCloseEvent)
    (outcome : RefreshOutcome) : CloseResult :=
  if ctx.manualClose then ⟨.closed, false, false⟩
  else if isUnauthorizedEvent e then
    match outcome with
    | .noHandler => ⟨.closed, false, scheduleReconnectFires ctx⟩
    | .syncBool false => ⟨.closed, true, false⟩
    | .syncBool true => ⟨.closed, true, scheduleReconnectFires ctx⟩
    | .syncUndefined => ⟨.closed, true, scheduleReconnectFires ctx⟩
    | .asyncResolved (some false) => ⟨.closed, true, false⟩
    | .asyncResolved _ => ⟨.closed, true, scheduleReconnectFires ctx⟩
    | .asyncRejected => ⟨.closed, true, scheduleReconnectFires ctx⟩
  else ⟨.closed, false, scheduleReconnectFires ctx⟩

/-- Model of the `toNumber` helper (SimulatorDetailPage.tsx): coerce and keep
only finite numbers. -/
def toNumber (v : Option JsNum) : Option ℚ :=
  jsFinite v

/-- Embedding of the `ConnectorMeterTimeline` entries stored in
`meterTimelines`. -/
structure ConnectorMeterTimeline where
  transactionId : Option String := none
  transactionKey : Option String := none
  samples : List NormalizedSample := []
deriving DecidableEq, Repr

/-- The slice of the page's mutable state touched by the event branches under
study: the per-connector rolling sample windows (`meterTimelines`), the
per-connector session runtimes (`sessionsByConnector` / `sessionsRef`), the
frozen-connector set (`frozenConnectorsRef`), the pending back-fill fetch
keys (`pendingHistoryFetchesRef`), a log of issued back-fill reads (one entry
per `hydrateConnectorHistory` call that reaches the network), and the reset
flow stage (`resetFlowRef`). -/
structure EngineState where
  meterTimelines : ℕ → Option ConnectorMeterTimeline
  sessionsByConnector : ℕ → Option SessionRuntime
  frozenConnectors : List ℕ
  pendingHistoryFetches : List (ℕ × String)
  issuedHistoryFetches : List (ℕ × String)
  resetFlowStage : Option String

/-- Payload of a `meter.sample` push frame as read by `handleSimulatorEvent`.
`connectorId` is `Number(event.connectorId)` with `0` standing for every
value rejected by the `!Number.isFinite(connectorId) || connectorId <= 0`
guard; `valueWh` is `event.valueWh ?? event.value`; the string timestamps are
modelled by their parse value. -/
structure MeterSamplePayload where
  connectorId : ℕ := 0
  valueWh : Option JsNum := none
  sampleTimestamp : Option ℚ := none
  timestampStr : Option ℚ := none
  deltaWh : Option JsNum := none
  powerKw : Option JsNum := none
  voltageV : Option JsNum := none
  currentA : Option JsNum := none
  energyKwh : Option JsNum := none
  intervalSeconds : Option JsNum := none
  transactionId : Option String := none
deriving DecidableEq, Repr

/-- Embedding of the `meter.sample` branch of `handleSimulatorEvent`
(SimulatorDetailPage.tsx, lines 1982–2100): validation, the frozen-connector
guard, the completed-runtime guard, the normalize/append/trim pipeline into
the rolling window, transaction adoption into the runtime, and the
`finalSample`/`lastSampleAt` bookkeeping.  The timeline-event and
telemetry-history side effects are outside the modelled state. -/
def handleMeterSample (now : ℚ) (st : EngineState) (ev : MeterSamplePayload) : EngineState :=
  if ev.connectorId = 0 then st
  else
    match jsFinite ev.valueWh with
    | none => st
    | some v =>
      if st.frozenConnectors.contains ev.connectorId then st
      else if (st.sessionsByConnector ev.connectorId).any
          (fun rt => decide (rt.state = "completed")) then st
      else
        let existing := st.meterTimelines ev.connectorId
        let transactionToUse := ev.transactionId <|> existing.bind ConnectorMeterTimeline.transactionId
        let samples := (existing.map ConnectorMeterTimeline.samples).getD []
        let previousSample := samples.getLast?
        let sampleTimestamp := (ev.sampleTimestamp <|> ev.timestampStr).getD now
        let normalizedSample := normalizeSample now
          { connectorId := ev.connectorId
            timestamp := .str (some sampleTimestamp)
            valueWh := some (.fin v)
            deltaWh := (toNumber ev.deltaWh).map .fin
            intervalSeconds := (toNumber ev.intervalSeconds).map .fin
            powerKw := (toNumber ev.powerKw).map .fin
            currentA := (toNumber ev.currentA).map .fin
            voltageV := (toNumber ev.voltageV).map .fin
            energyKwh := (toNumber ev.energyKwh).map .fin
            transactionId := transactionToUse }
          previousSample
        let updatedSamples := trimWindow (appendSample samples normalizedSample) TELEMETRY_WINDOW_MS
        let updatedTimeline : ConnectorMeterTimeline :=
          { transactionId := transactionToUse
            transactionKey := transactionToUse <|> existing.bind ConnectorMeterTimeline.transactionKey
            samples := updatedSamples }
        let timelines1 := Function.update st.meterTimelines ev.connectorId (some updatedTimeline)
        let st1 := { st with meterTimelines := timelines1 }
        let st2 :=
          match ev.transactionId with
          | none => st1
          | some tx =>
            match st1.sessionsByConnector ev.connectorId with
            | none => st1
            | some existingRt =>
              if existingRt.transactionId.any (fun t => decide (t ≠ tx)) then st1
              else
                let adopted := { existingRt with
                  transactionId := some tx
                  transactionKey := some tx
                  cmsTransactionKey := some tx }
                let sessions2 := Function.update st1.sessionsByConnector ev.connectorId (some adopted)
                { st1 with sessionsByConnector := sessions2 }
        match st2.sessionsByConnector ev.connectorId with
        | none => st2
        | some existingRt =>
          let stamped := { existingRt with
            finalSample := some normalizedSample
            lastSampleAt := some normalizedSample.isoTimestamp }
          let sessions3 := Function.update st2.sessionsByConnector ev.connectorId (some stamped)
          { st2 with sessionsByConnector := sessions3 }

/-- Payload of a `session.started` push frame.  `pricePerKwh`/`maxKw` carry
the `typeof === "number"` checked fields. -/
structure SessionStartPayload where
  connectorId : ℕ := 0
  transactionId : Option String := none
  startedAt : Option ℚ := none
  meterStartWh : Option JsNum := none
  pricePerKwh : Option ℚ := none
  maxKw : Option ℚ := none
  idTag : Option String := none
deriving DecidableEq, Repr

/-- Embedding of the `session.started` branch of `handleSimulatorEvent`
(SimulatorDetailPage.tsx, lines 2116–2230): validation, unfreezing the
connector, rebuilding the runtime as a fresh `charging` record with the
meter-start clamped up to a previous stop register, and seeding the rolling
window with a baseline sample.  `ambientPrice` models `data?.price_per_kwh`. -/
def handleSessionStarted (now : ℚ) (ambientPrice : Option ℚ) (st : EngineState)
    (ev : SessionStartPayload) : EngineState :=
  if ev.connectorId = 0 then st
  else
    let startedAt := ev.startedAt.getD now
    let normalizedMeterStart := jsFinite ev.meterStartWh
    let pricePerKwh := ev.pricePerKwh <|> ambientPrice
    let st1 := { st with frozenConnectors := st.frozenConnectors.erase ev.connectorId }
    let existing := st1.sessionsByConnector ev.connectorId
    let previousStop := existing.bind SessionRuntime.meterStopWh
    let resolvedStart0 := (normalizedMeterStart <|> previousStop).getD 0
    let resolvedStart :=
      match previousStop with
      | some ps => if resolvedStart0 < ps then ps else resolvedStart0
      | none => resolvedStart0
    let freshRuntime : SessionRuntime :=
      { connectorId := ev.connectorId
        transactionId := ev.transactionId <|> existing.bind SessionRuntime.transactionId
        transactionKey := ev.transactionId <|> existing.bind SessionRuntime.transactionKey
        cmsTransactionKey := ev.transactionId <|> existing.bind SessionRuntime.cmsTransactionKey
        idTag := ev.idTag <|> existing.bind SessionRuntime.idTag
        startedAt := some startedAt
        completedAt := none
        updatedAt := some startedAt
        state := "charging"
        meterStartWh := some resolvedStart
        meterStopWh := none
        pricePerKwh := pricePerKwh <|> existing.bind SessionRuntime.pricePerKwh
        maxKw := ev.maxKw <|> existing.bind SessionRuntime.maxKw
        cmsSessionId := existing.bind SessionRuntime.cmsSessionId
        finalSample := none
        lastSampleAt := some startedAt }
    let sessions1 := Function.update st1.sessionsByConnector ev.connectorId (some freshRuntime)
    let st2 := { st1 with sessionsByConnector := sessions1 }
    let existingTl := st2.meterTimelines ev.connectorId
    let baselineSample := normalizeSample now
      { connectorId := ev.connectorId
        timestamp := .str (some startedAt)
        valueWh := some (.fin (normalizedMeterStart.getD resolvedStart))
        powerKw := some (.fin 0)
        currentA := some (.fin 0)
        energyKwh := some (.fin (roundTo 3 (normalizedMeterStart.getD resolvedStart / 1000)))
        transactionId := ev.transactionId <|> existingTl.bind ConnectorMeterTimeline.transactionId }
      none
    let updatedSamples := appendSample ((existingTl.map ConnectorMeterTimeline.samples).getD [])
      baselineSample
    let seededTimeline : ConnectorMeterTimeline :=
      { transactionId := ev.transactionId <|> existingTl.bind ConnectorMeterTimeline.transactionId
        transactionKey := ev.transactionId <|> existingTl.bind ConnectorMeterTimeline.transactionKey
        samples := trimWindow updatedSamples TELEMETRY_WINDOW_MS }
    let timelines1 := Function.update st2.meterTimelines ev.connectorId (some seededTimeline)
    { st2 with meterTimelines := timelines1 }

/-- Payload of a `session.stopped` push frame. -/
structure SessionStopPayload where
  connectorId : ℕ := 0
  transactionId : Option String := none
  meterStopWh : Option JsNum := none
  endedAt : Option ℚ := none
  timestampStr : Option ℚ := none
  sampleTimestamp : Option ℚ := none
  powerKw : Option JsNum := none
  currentA : Option JsNum := none
  voltageV : Option JsNum := none
  energyKwh : Option JsNum := none
  deltaWh : Option JsNum := none
deriving DecidableEq, Repr

/-- Embedding of `hydrateConnectorHistory` as a state transition: record one
back-fill read against REST history, unless the connector is invalid, the
transaction id is falsy (`!transactionId`: absent or empty), or a fetch with
the same key is already pending. -/
def hydrateConnectorHistoryReq (st : EngineState) (connectorId : ℕ)
    (transactionId : Option String) : EngineState :=
  if connectorId = 0 then st
  else
    match transactionId with
    | none => st
    | some tx =>
      if tx = "" then st
      else if st.pendingHistoryFetches.contains (connectorId, tx) then st
      else { st with
        pendingHistoryFetches := st.pendingHistoryFetches.insert (connectorId, tx)
        issuedHistoryFetches := st.issuedHistoryFetches ++ [(connectorId, tx)] }

/-- The transaction id the stop handler passes to the back-fill read:
`transactionId ?? timelineSnapshot?.transactionId ??
previousSession?.transactionId`, all read from the pre-event state. -/
def stopHistoryTransaction (st : EngineState) (ev : SessionStopPayload) : Option String :=
  ev.transactionId <|>
    (st.meterTimelines ev.connectorId).bind ConnectorMeterTimeline.transactionId <|>
    (st.sessionsByConnector ev.connectorId).bind SessionRuntime.transactionId

/-- The state updates of the `session.stopped` branch before the back-fill
read: completed runtime, frozen flag, final stop sample in the window. -/
def sessionStoppedCore (now : ℚ) (st : EngineState) (ev : SessionStopPayload) : EngineState :=
  let meterStopWh : JsNum := ev.meterStopWh.getD (.fin 0)
  let endedAt := (ev.endedAt <|> ev.timestampStr).getD now
  let sampleTimestamp := ev.sampleTimestamp.getD endedAt
  let previousSession := st.sessionsByConnector ev.connectorId
  let timelineSnapshot := st.meterTimelines ev.connectorId
  let stopSample : Option NormalizedSample :=
    match meterStopWh with
    | .fin stopWh => some (normalizeSample now
        { connectorId := ev.connectorId
          timestamp := .str (some sampleTimestamp)
          valueWh := some (.fin stopWh)
          energyKwh := some (.fin ((toNumber ev.energyKwh).getD (roundTo 3 (stopWh / 1000))))
          transactionId := ev.transactionId <|>
            timelineSnapshot.bind ConnectorMeterTimeline.transactionId
          powerKw := (toNumber ev.powerKw).map .fin
          currentA := (toNumber ev.currentA).map .fin
          voltageV := (toNumber ev.voltageV).map .fin
          deltaWh := (toNumber ev.deltaWh).map .fin }
        (timelineSnapshot.bind (fun t => t.samples.getLast?)))
    | _ => none
  let st1 :=
    match previousSession with
    | none => st
    | some existing =>
      if ev.transactionId.isSome ∧ existing.transactionId.isSome ∧
          ev.transactionId ≠ existing.transactionId then st
      else
        let updatedSession : SessionRuntime :=
          { existing with
            state := "completed"
            completedAt := some sampleTimestamp
            updatedAt := some sampleTimestamp
            meterStopWh :=
              match meterStopWh with
              | .fin q => some q
              | _ => existing.meterStopWh
            transactionId := ev.transactionId <|> existing.transactionId
            transactionKey := ev.transactionId <|> existing.transactionKey
            cmsTransactionKey := ev.transactionId <|> existing.cmsTransactionKey
            finalSample := stopSample <|> existing.finalSample
            lastSampleAt := (stopSample.map NormalizedSample.isoTimestamp) <|>
              some sampleTimestamp <|> existing.lastSampleAt }
        let sessions1 := Function.update st.sessionsByConnector ev.connectorId (some updatedSession)
        { st with sessionsByConnector := sessions1 }
  let st2 := { st1 with frozenConnectors := st1.frozenConnectors.insert ev.connectorId }
  match stopSample with
  | some s =>
    let existingTl := st2.meterTimelines ev.connectorId
    let samples := (existingTl.map ConnectorMeterTimeline.samples).getD []
    let stoppedTimeline : ConnectorMeterTimeline :=
      { transactionId := ev.transactionId <|>
          existingTl.bind ConnectorMeterTimeline.transactionId
        transactionKey := ev.transactionId <|>
          existingTl.bind ConnectorMeterTimeline.transactionKey
        samples := trimWindow (appendSample samples s) TELEMETRY_WINDOW_MS }
    let timelines2 := Function.update st2.meterTimelines ev.connectorId (some stoppedTimeline)
    { st2 with meterTimelines := timelines2 }
  | none => st2

/-- Embedding of the `session.stopped` branch of `handleSimulatorEvent`
(SimulatorDetailPage.tsx, lines 2246–2365): mark the runtime `completed`
(unless the transaction identities conflict), freeze the connector, append
the final stop sample to the rolling window, and issue one back-fill read
against REST history for the closed transaction.  Note
`Number(event.meterStopWh ?? "")` coerces a missing register to `0`. -/
def handleSessionStopped (now : ℚ) (st : EngineState) (ev : SessionStopPayload) : EngineState :=
  if ev.connectorId = 0 then st
  else
    hydrateConnectorHistoryReq (sessionStoppedCore now st ev) ev.connectorId
      (stopHistoryTransaction st ev)
/-- Embedding of the reset-flow part of the `simulator.state` branch
(SimulatorDetailPage.tsx, lines 1950–1979): while a reset flow is in
progress, a disconnect moves the stage to `rebooting`, and a reconnect
(BootNotification) moves it to `reconnected` and clears all telemetry state,
including every frozen-connector flag. -/
def handleSimulatorStateConnected (st : EngineState) (connected : Bool) : EngineState :=
  match st.resetFlowStage with
  | none => st
  | some stage =>
    if connected = false ∧ stage = "requested" then
      { st with resetFlowStage := some "rebooting" }
    else if connected = true ∧ stage ≠ "reconnected" then
      { st with
        resetFlowStage := some "reconnected"
        meterTimelines := fun _ => none
        sessionsByConnector := fun _ => none
        frozenConnectors := [] }
    else st

/-- The push frames modelled here; `simulatorState none` covers a
`simulator.state` frame without a boolean `connected` field, `otherEvent`
every remaining frame type (none of which touches the modelled state). -/
inductive SimEvent where
  | meterSample (p : MeterSamplePayload)
  | sessionStarted (p : SessionStartPayload)
  | sessionStopped (p : SessionStopPayload)
  | simulatorState (connected : Option Bool)
  | otherEvent
deriving DecidableEq, Repr

/-- Dispatcher over the modelled `handleSimulatorEvent` branches. -/
def handleSimulatorEvent (now : ℚ) (ambientPrice : Option ℚ) (st : EngineState) :
    SimEvent → EngineState
  | .meterSample p => handleMeterSample now st p
  | .sessionStarted p => handleSessionStarted now ambientPrice st p
  | .sessionStopped p => handleSessionStopped now st p
  | .simulatorState (some connected) => handleSimulatorStateConnected st connected
  | .simulatorState none => st
  | .otherEvent => st

/-- Whether an event is a `session.started` frame for the given connector. -/
def SimEvent.isSessionStartedFor : SimEvent → ℕ → Bool
  | .sessionStarted p, cid => p.connectorId == cid
  | _, _ => false

/-- Whether an event is a `simulator.state` frame reporting `connected:
true` (the reset-flow branch that wipes all frozen flags). -/
def SimEvent.isConnectedStateFrame : SimEvent → Bool
  | .simulatorState (some true) => true
  | _ => false

/-- Timestamps are pairwise distinct in the series. -/
def NodupTs (s : List NormalizedSample) : Prop :=
  (s.map NormalizedSample.timestamp).Nodup

lemma nodupTs_iff {s : List NormalizedSample} :
    NodupTs s ↔ s.Pairwise (fun a b => a.timestamp ≠ b.timestamp) := by
  unfold NodupTs List.Nodup
  exact List.pairwise_map

lemma sortedByTs_nodupTs {s : List NormalizedSample} (h : sortedByTs s) : NodupTs s :=
  nodupTs_iff.mpr (h.imp fun hlt => ne_of_lt hlt)

/-- The timestamp comparator used by `appendSample` is transitive. -/
lemma tsLe_trans : ∀ a b c : NormalizedSample,
    decide (a.timestamp ≤ b.timestamp) = true →
    decide (b.timestamp ≤ c.timestamp) = true →
    decide (a.timestamp ≤ c.timestamp) = true := by
  intro a b c hab hbc
  simp only [decide_eq_true_eq] at *
  exact le_trans hab hbc

/-- The timestamp comparator used by `appendSample` is total. -/
lemma tsLe_total : ∀ a b : NormalizedSample,
    (decide (a.timestamp ≤ b.timestamp) || decide (b.timestamp ≤ a.timestamp)) = true := by
  intro a b
  simpa using le_total a.timestamp b.timestamp

/-- In the miss branch (`findIndex` returned `-1`), `appendSample` appends
and re-sorts. -/
lemma appendSample_of_fresh (s : List NormalizedSample) (x : NormalizedSample)
    (h : ∀ y ∈ s, y.timestamp ≠ x.timestamp) :
    appendSample s x =
      (s ++ [x]).mergeSort (fun a b => decide (a.timestamp ≤ b.timestamp)) := by
  unfold appendSample
  have hnone : s.findIdx? (fun item => decide (item.timestamp = x.timestamp)) = none := by
    rw [List.findIdx?_eq_none_iff]
    intro y hy
    simpa using h y hy
  rw [hnone]

/-- The result of `appendSample` is a permutation of the input with the
sample appended, in the miss branch. -/
lemma appendSample_perm_of_fresh (s : List NormalizedSample) (x : NormalizedSample)
    (h : ∀ y ∈ s, y.timestamp ≠ x.timestamp) :
    (appendSample s x).Perm (s ++ [x]) := by
  rw [appendSample_of_fresh s x h]
  exact List.mergeSort_perm _ _

/-- In the miss branch the result is sorted by timestamp (non-strictly). -/
lemma appendSample_pairwise_le_of_fresh (s : List NormalizedSample) (x : NormalizedSample)
    (h : ∀ y ∈ s, y.timestamp ≠ x.timestamp) :
    (appendSample s x).Pairwise (fun a b => a.timestamp ≤ b.timestamp) := by
  rw [appendSample_of_fresh s x h]
  have := List.sorted_mergeSort tsLe_trans tsLe_total (s ++ [x])
  exact this.imp (fun hab => by simpa using hab)

/-- Strict sortedness from non-strict sortedness plus distinct timestamps. -/
lemma sortedByTs_of_le_nodup {l : List NormalizedSample}
    (h1 : l.Pairwise (fun a b => a.timestamp ≤ b.timestamp))
    (h2 : NodupTs l) : sortedByTs l := by
  have h2p := nodupTs_iff.mp h2
  exact (h1.and h2p).imp fun hab => lt_of_le_of_ne hab.1 hab.2

/-- A permutation preserves timestamp distinctness. -/
lemma nodupTs_of_perm {l l' : List NormalizedSample} (hp : l.Perm l') (h : NodupTs l) :
    NodupTs l' :=
  ((hp.map NormalizedSample.timestamp).nodup_iff).mp h

/-- A member of an upserted series is an old member or the new sample. -/
lemma mem_appendSample {y x : NormalizedSample} {s : List NormalizedSample}
    (h : y ∈ appendSample s x) : y ∈ s ∨ y = x := by
  unfold appendSample at h
  rcases hfind : s.findIdx? (fun item => decide (item.timestamp = x.timestamp)) with _ | i
  · rw [hfind] at h
    have := (List.mergeSort_perm (s ++ [x]) (fun a b => decide (a.timestamp ≤ b.timestamp))).mem_iff.mp h
    simpa using this
  · rw [hfind] at h
    exact List.mem_or_eq_of_mem_set h

/-- Unfolding equation for the head-replacement case. -/
lemma appendSample_cons_hit (a x : NormalizedSample) (s : List NormalizedSample)
    (ha : a.timestamp = x.timestamp) : appendSample (a :: s) x = x :: s := by
  unfold appendSample
  rw [List.findIdx?_cons, if_pos (by simpa using ha)]
  rfl

/-- Unfolding equation for the head-skipping case when the timestamp occurs
further down. -/
lemma appendSample_cons_skip (a x : NormalizedSample) (s : List NormalizedSample) (i : ℕ)
    (ha : a.timestamp ≠ x.timestamp)
    (hfind : s.findIdx? (fun item => decide (item.timestamp = x.timestamp)) = some i) :
    appendSample (a :: s) x = a :: appendSample s x := by
  unfold appendSample
  rw [List.findIdx?_cons, if_neg (by simpa using ha), List.findIdx?_succ, hfind]
  simp [hfind]

/-- Upserting into a series with distinct timestamps leaves exactly the new
sample at the target timestamp. -/
lemma appendSample_filter (x : NormalizedSample) :
    ∀ s : List NormalizedSample, NodupTs s →
    (appendSample s x).filter (fun y => decide (y.timestamp = x.timestamp)) = [x] := by
  intro s
  induction s with
  | nil =>
    intro _
    rw [appendSample_of_fresh [] x (by simp)]
    simp
  | cons a s ih =>
    intro hnd
    obtain ⟨hhead, htail⟩ := List.pairwise_cons.mp (nodupTs_iff.mp hnd)
    have hnd' : NodupTs s := nodupTs_iff.mpr htail
    by_cases ha : a.timestamp = x.timestamp
    · rw [appendSample_cons_hit a x s ha]
      have hrest : s.filter (fun y => decide (y.timestamp = x.timestamp)) = [] := by
        rw [List.filter_eq_nil_iff]
        intro y hy
        have hne := hhead y hy
        simp only [decide_eq_true_eq]
        rw [← ha]
        exact fun hcon => hne hcon.symm
      simp [hrest]
    · rcases hfind : s.findIdx? (fun item => decide (item.timestamp = x.timestamp)) with _ | i
      · have hfresh : ∀ y ∈ a :: s, y.timestamp ≠ x.timestamp := by
          intro y hy
          rcases List.mem_cons.mp hy with hya | hys
          · exact hya ▸ ha
          · have := List.findIdx?_eq_none_iff.mp hfind y hys
            simpa using this
        have hperm := appendSample_perm_of_fresh (a :: s) x hfresh
        have hpf := hperm.filter (fun y => decide (y.timestamp = x.timestamp))
        have heval : ((a :: s) ++ [x]).filter (fun y => decide (y.timestamp = x.timestamp)) = [x] := by
          rw [List.filter_append]
          have hln : (a :: s).filter (fun y => decide (y.timestamp = x.timestamp)) = [] := by
            rw [List.filter_eq_nil_iff]
            intro y hy
            simpa using hfresh y hy
          simp [hln]
        rw [heval] at hpf
        exact List.perm_singleton.mp hpf
      · rw [appendSample_cons_skip a x s i ha hfind, List.filter_cons,
          if_neg (by simpa using ha)]
        exact ih hnd'

/-- Upserting preserves timestamp distinctness. -/
lemma appendSample_nodupTs (x : NormalizedSample) :
    ∀ s : List NormalizedSample, NodupTs s → NodupTs (appendSample s x) := by
  intro s
  induction s with
  | nil =>
    intro _
    rw [appendSample_of_fresh [] x (by simp)]
    have hperm := List.mergeSort_perm ([] ++ [x]) (fun a b => decide (a.timestamp ≤ b.timestamp))
    exact nodupTs_of_perm hperm.symm (by simp [NodupTs])
  | cons a s ih =>
    intro hnd
    obtain ⟨hhead, htail⟩ := List.pairwise_cons.mp (nodupTs_iff.mp hnd)
    have hnd' : NodupTs s := nodupTs_iff.mpr htail
    by_cases ha : a.timestamp = x.timestamp
    · rw [appendSample_cons_hit a x s ha]
      rw [nodupTs_iff]
      refine List.Pairwise.cons ?_ htail
      intro y hy
      rw [← ha]
      exact hhead y hy
    · rcases hfind : s.findIdx? (fun item => decide (item.timestamp = x.timestamp)) with _ | i
      · have hfresh : ∀ y ∈ a :: s, y.timestamp ≠ x.timestamp := by
          intro y hy
          rcases List.mem_cons.mp hy with hya | hys
          · exact hya ▸ ha
          · have := List.findIdx?_eq_none_iff.mp hfind y hys
            simpa using this
        have hperm := appendSample_perm_of_fresh (a :: s) x hfresh
        refine nodupTs_of_perm hperm.symm ?_
        rw [nodupTs_iff] at hnd ⊢
        rw [List.pairwise_append]
        refine ⟨hnd, by simp, ?_⟩
        intro y hy z hz
        simp only [List.mem_singleton] at hz
        subst hz
        exact hfresh y hy
      · rw [appendSample_cons_skip a x s i ha hfind]
        rw [nodupTs_iff]
        refine List.Pairwise.cons ?_ (nodupTs_iff.mp (ih hnd'))
        intro y hy
        rcases mem_appendSample hy with hys | hyx
        · exact hhead y hys
        · subst hyx
          exact ha

instance : IsAntisymm NormalizedSample (fun a b => a.timestamp < b.timestamp) :=
  ⟨fun _ _ hab hba => absurd (lt_trans hab hba) (lt_irrefl _)⟩

/-- Appending to the empty series yields the singleton series. -/
lemma appendSample_nil (x : NormalizedSample) : appendSample [] x = [x] := by
  rw [appendSample_of_fresh [] x (by simp)]
  exact List.mergeSort_of_sorted (by simp)

/-- Appending a sample strictly newer than every element is a plain append. -/
lemma appendSample_append_of_gt (s : List NormalizedSample) (n : NormalizedSample)
    (hs : s.Pairwise (fun a b => a.timestamp < b.timestamp))
    (h : ∀ y ∈ s, y.timestamp < n.timestamp) :
    appendSample s n = s ++ [n] := by
  rw [appendSample_of_fresh s n (fun y hy => ne_of_lt (h y hy))]
  apply List.mergeSort_of_sorted
  have hpl : (s ++ [n]).Pairwise (fun a b => a.timestamp < b.timestamp) := by
    rw [List.pairwise_append]
    refine ⟨hs, by simp, ?_⟩
    intro y hy z hz
    simp only [List.mem_singleton] at hz
    subst hz
    exact h y hy
  exact hpl.imp fun hab => by simpa using le_of_lt hab

/-- The miss branch of `appendSample` computed through sortedness: if a
strictly sorted list is a permutation of the input with the sample appended,
it is the result. -/
lemma appendSample_eq_of_sorted_perm (s : List NormalizedSample) (n : NormalizedSample)
    (expected : List NormalizedSample)
    (hfresh : ∀ y ∈ s, y.timestamp ≠ n.timestamp)
    (hsorted : sortedByTs expected)
    (hp : (s ++ [n]).Perm expected) :
    appendSample s n = expected := by
  rw [appendSample_of_fresh s n hfresh]
  have hperm1 := List.mergeSort_perm (s ++ [n]) (fun a b => decide (a.timestamp ≤ b.timestamp))
  have hperm2 : ((s ++ [n]).mergeSort (fun a b => decide (a.timestamp ≤ b.timestamp))).Perm
      expected := hperm1.trans hp
  have hle := List.sorted_mergeSort tsLe_trans tsLe_total (s ++ [n])
  have hnd : NodupTs ((s ++ [n]).mergeSort (fun a b => decide (a.timestamp ≤ b.timestamp))) :=
    nodupTs_of_perm hperm2.symm (sortedByTs_nodupTs hsorted)
  have hstrict : sortedByTs ((s ++ [n]).mergeSort (fun a b => decide (a.timestamp ≤ b.timestamp))) :=
    sortedByTs_of_le_nodup (hle.imp fun hab => by simpa using hab) hnd
  exact List.eq_of_perm_of_sorted hperm2 hstrict hsorted

/-- When the new sample's timestamp equals the last element's and occurs
nowhere else, `appendSample` replaces the last element in place. -/
lemma appendSample_replace_last (t : List NormalizedSample) (lastS n : NormalizedSample)
    (hfreshT : ∀ y ∈ t, y.timestamp ≠ n.timestamp)
    (hl : lastS.timestamp = n.timestamp) :
    appendSample (t ++ [lastS]) n = t ++ [n] := by
  induction t with
  | nil => simpa using appendSample_cons_hit lastS n [] hl
  | cons a t ih =>
    have ha : a.timestamp ≠ n.timestamp := hfreshT a (List.mem_cons_self a t)
    have hfreshT' : ∀ y ∈ t, y.timestamp ≠ n.timestamp :=
      fun y hy => hfreshT y (List.mem_cons_of_mem a hy)
    rcases hfind : (t ++ [lastS]).findIdx?
        (fun item => decide (item.timestamp = n.timestamp)) with _ | i
    · exfalso
      have := List.findIdx?_eq_none_iff.mp hfind lastS (by simp)
      simp [hl] at this
    · have hstep := appendSample_cons_skip a n (t ++ [lastS]) i ha hfind
      calc appendSample ((a :: t) ++ [lastS]) n
          = appendSample (a :: (t ++ [lastS])) n := by simp
        _ = a :: appendSample (t ++ [lastS]) n := hstep
        _ = a :: (t ++ [n]) := by rw [ih hfreshT']
        _ = (a :: t) ++ [n] := by simp

/-- The timestamp of a normalised sample is the resolved timestamp. -/
lemma normalizeSample_timestamp (now : ℚ) (raw : RawSampleInput)
    (prev : Option NormalizedSample) :
    (normalizeSample now raw prev).timestamp = (resolveTimestamp now raw.timestamp).timestamp :=
  rfl

/-- The register of a normalised sample never drops below the previous
sample's register (the monotonicity clamp). -/
lemma derivedValueWh_ge (raw : RawSampleInput) (p : NormalizedSample) :
    p.valueWh ≤ derivedValueWh raw (some p) := by
  unfold derivedValueWh
  rcases jsFinite raw.valueWh with _ | rawWh
  · simp
  · dsimp only
    by_cases h : rawWh < p.valueWh
    · rw [if_pos h]
    · rw [if_neg h]
      exact le_of_not_lt h

/-- A minimal canonical sample for concrete checks. -/
def mkSample (ts v : ℚ) : NormalizedSample :=
  { connectorId := 1, timestamp := ts, isoTimestamp := ts, valueWh := v,
    powerKw := 0, currentA := 0, energyKwh := 0 }

/-- C4: for every connector series (sorted with distinct timestamps, the
series invariant) and every pair of canonical samples sharing a timestamp,
appending both via `appendSample` leaves exactly one entry at that timestamp,
carrying the later-appended sample's values; and a sample with a fresh
timestamp is inserted so that the sequence stays strictly sorted by
timestamp while keeping exactly the old samples plus the new one. -/
theorem appendSample_upsert_dedup (s : List NormalizedSample) (a b : NormalizedSample)
    (hs : sortedByTs s) (hab : a.timestamp = b.timestamp) :
    ((appendSample (appendSample s a) b).filter
        (fun y => decide (y.timestamp = b.timestamp)) = [b])
    ∧ ∀ c : NormalizedSample, (∀ y ∈ s, y.timestamp ≠ c.timestamp) →
        sortedByTs (appendSample s c) ∧ (appendSample s c).Perm (s ++ [c]) := by
  constructor
  · have h1 : NodupTs s := sortedByTs_nodupTs hs
    have h2 : NodupTs (appendSample s a) := appendSample_nodupTs a s h1
    exact appendSample_filter b (appendSample s a) h2
  · intro c hc
    have hperm := appendSample_perm_of_fresh s c hc
    refine ⟨?_, hperm⟩
    have hle := appendSample_pairwise_le_of_fresh s c hc
    have hnd : NodupTs (s ++ [c]) := by
      rw [nodupTs_iff, List.pairwise_append]
      refine ⟨nodupTs_iff.mp (sortedByTs_nodupTs hs), by simp, ?_⟩
      intro y hy z hz
      simp only [List.mem_singleton] at hz
      subst hz
      exact hc y hy
    exact sortedByTs_of_le_nodup hle (nodupTs_of_perm hperm.symm hnd)

theorem appendSample_upsert_dedup_witness :
    ((appendSample (appendSample [mkSample 0 0] (mkSample 5 10)) (mkSample 5 20)).filter
        (fun y => decide (y.timestamp = (mkSample 5 20).timestamp)) = [mkSample 5 20])
    ∧ sortedByTs (appendSample [mkSample 0 0] (mkSample 7 1))
    ∧ (appendSample [mkSample 0 0] (mkSample 7 1)).Perm ([mkSample 0 0] ++ [mkSample 7 1]) := by
  have h := appendSample_upsert_dedup [mkSample 0 0] (mkSample 5 10) (mkSample 5 20)
    (by decide) (by decide)
  have h2 := h.2 (mkSample 7 1) (by decide)
  exact ⟨h.1, h2.1, h2.2⟩

/-- C1 (amended): under in-order delivery — each arriving raw sample's
resolved timestamp is at least the series' last timestamp — one step of the
normalise-then-upsert pipeline preserves strict timestamp sortedness and the
non-decreasing cumulative register. -/
theorem series_register_monotone_inorder (now : ℚ) (s : List NormalizedSample)
    (raw : RawSampleInput)
    (hs : sortedByTs s) (hm : valuesMonotone s)
    (hord : ∀ p ∈ s.getLast?, p.timestamp ≤ (resolveTimestamp now raw.timestamp).timestamp) :
    sortedByTs (deliver now s raw) ∧ valuesMonotone (deliver now s raw) := by
  rcases List.eq_nil_or_concat s with rfl | ⟨t, lastS, hcat⟩
  · have : deliver now [] raw = [normalizeSample now raw none] := by
      unfold deliver
      exact appendSample_nil _
    rw [this]
    exact ⟨List.pairwise_singleton _ _, List.chain'_singleton _⟩
  · rw [List.concat_eq_append] at hcat
    subst hcat
    have hgl : (t ++ [lastS]).getLast? = some lastS := List.getLast?_concat t
    have hdel : deliver now (t ++ [lastS]) raw =
        appendSample (t ++ [lastS]) (normalizeSample now raw (some lastS)) := by
      unfold deliver
      rw [hgl]
    set n := normalizeSample now raw (some lastS) with hn
    have hts : n.timestamp = (resolveTimestamp now raw.timestamp).timestamp := rfl
    have h_le_ts : lastS.timestamp ≤ n.timestamp := by
      rw [hts]
      exact hord lastS (by rw [hgl]; rfl)
    have hval : lastS.valueWh ≤ n.valueWh := derivedValueWh_ge raw lastS
    obtain ⟨hs_t, -, hrel⟩ := List.pairwise_append.mp hs
    have ht_lt_last : ∀ x ∈ t, x.timestamp < lastS.timestamp := by
      intro x hx
      exact hrel x hx lastS (by simp)
    obtain ⟨hm_t, -, hm_rel⟩ := List.chain'_append.mp hm
    have hm_last : ∀ x ∈ t.getLast?, x.valueWh ≤ lastS.valueWh := by
      intro x hx
      exact hm_rel x hx lastS (by simp)
    by_cases heq : n.timestamp = lastS.timestamp
    · have happ : appendSample (t ++ [lastS]) n = t ++ [n] := by
        refine appendSample_replace_last t lastS n ?_ heq.symm
        intro y hy
        have := ht_lt_last y hy
        rw [← heq] at this
        exact ne_of_lt this
      rw [hdel, happ]
      constructor
      · rw [sortedByTs, List.pairwise_append]
        refine ⟨hs_t, by simp, ?_⟩
        intro x hx y hy
        simp only [List.mem_singleton] at hy
        subst hy
        rw [heq]
        exact ht_lt_last x hx
      · rw [valuesMonotone, List.chain'_append]
        refine ⟨hm_t, List.chain'_singleton _, ?_⟩
        intro x hx y hy
        simp only [List.head?_cons, Option.mem_some_iff] at hy
        subst hy
        exact le_trans (hm_last x hx) hval
    · have hlt : lastS.timestamp < n.timestamp :=
        lt_of_le_of_ne h_le_ts (fun h => heq h.symm)
      have hall_lt : ∀ y ∈ t ++ [lastS], y.timestamp < n.timestamp := by
        intro y hy
        rcases List.mem_append.mp hy with hyt | hyl
        · exact lt_trans (ht_lt_last y hyt) hlt
        · simp only [List.mem_singleton] at hyl
          subst hyl
          exact hlt
      have happ : appendSample (t ++ [lastS]) n = (t ++ [lastS]) ++ [n] :=
        appendSample_append_of_gt (t ++ [lastS]) n hs hall_lt
      rw [hdel, happ]
      constructor
      · rw [sortedByTs, List.pairwise_append]
        refine ⟨hs, by simp, ?_⟩
        intro x hx y hy
        simp only [List.mem_singleton] at hy
        subst hy
        exact hall_lt x hx
      · rw [valuesMonotone, List.chain'_append]
        refine ⟨hm, List.chain'_singleton _, ?_⟩
        intro x hx y hy
        simp only [List.head?_cons, Option.mem_some_iff] at hy
        subst hy
        rw [hgl] at hx
        simp only [Option.mem_some_iff] at hx
        subst hx
        exact hval

theorem series_register_monotone_inorder_witness :
    sortedByTs (deliver 0 [mkSample 0 0]
      { connectorId := 1, timestamp := .num (.fin 1000), valueWh := some (.fin 500) })
    ∧ valuesMonotone (deliver 0 [mkSample 0 0]
      { connectorId := 1, timestamp := .num (.fin 1000), valueWh := some (.fin 500) }) :=
  series_register_monotone_inorder 0 [mkSample 0 0]
    { connectorId := 1, timestamp := .num (.fin 1000), valueWh := some (.fin 500) }
    (by decide) (by decide)
    (by intro p hp; simp only [List.getLast?_singleton, Option.mem_some_iff] at hp;
        subst hp; decide)

/-- Register-only raw reading used in the monotonicity counterexample. -/
def c1raw (ts v : ℚ) : RawSampleInput :=
  { connectorId := 1, timestamp := .num (.fin ts), valueWh := some (.fin v) }

/-- The four normalised samples of the counterexample run, each normalised
against the series' last sample at its delivery time. -/
def c1n0 : NormalizedSample := normalizeSample 0 (c1raw 0 0) none

def c1n1 : NormalizedSample := normalizeSample 0 (c1raw 1000 500) (some c1n0)

def c1n2 : NormalizedSample := normalizeSample 0 (c1raw 2000 900) (some c1n1)

def c1n3 : NormalizedSample := normalizeSample 0 (c1raw 500 100) (some c1n2)

/-- The series obtained by delivering registers 0@t0, 500@t1000, 900@t2000
and then the late 100@t500 through the normalise-then-upsert pipeline. -/
def c1series : List NormalizedSample :=
  deliver 0 (deliver 0 (deliver 0 (deliver 0 [] (c1raw 0 0)) (c1raw 1000 500))
    (c1raw 2000 900)) (c1raw 500 100)

lemma c1series_eq : c1series = [c1n0, c1n3, c1n1, c1n2] := by
  have h0 : deliver 0 [] (c1raw 0 0) = [c1n0] := by
    unfold deliver
    exact appendSample_nil _
  have h1 : deliver 0 [c1n0] (c1raw 1000 500) = [c1n0, c1n1] := by
    unfold deliver
    exact appendSample_append_of_gt [c1n0] c1n1 (by decide) (by decide)
  have h2 : deliver 0 [c1n0, c1n1] (c1raw 2000 900) = [c1n0, c1n1, c1n2] := by
    unfold deliver
    exact appendSample_append_of_gt [c1n0, c1n1] c1n2 (by decide) (by decide)
  have h3 : deliver 0 [c1n0, c1n1, c1n2] (c1raw 500 100) = [c1n0, c1n3, c1n1, c1n2] := by
    unfold deliver
    refine appendSample_eq_of_sorted_perm [c1n0, c1n1, c1n2] c1n3 [c1n0, c1n3, c1n1, c1n2]
      (by decide) (by decide) ?_
    refine List.Perm.cons c1n0 ?_
    exact List.Perm.trans (List.Perm.cons c1n1 (List.Perm.swap c1n3 c1n2 []))
      (List.Perm.swap c1n3 c1n1 [c1n2])
  unfold c1series
  rw [h0, h1, h2, h3]

/-- C1 counterexample: with out-of-order delivery the pipeline violates
register monotonicity — the late sample is clamped up to the newest register
(900) and then inserted before older samples with smaller registers, so the
resulting register sequence is 0, 900, 500, 900. -/
theorem monotonicity_cex_out_of_order :
    ¬ valuesMonotone c1series ∧
    c1series.map NormalizedSample.valueWh = [0, 900, 500, 900] := by
  rw [c1series_eq]
  exact ⟨by decide, by decide⟩

lemma strideTake_subset {α : Type} (stride : ℕ) :
    ∀ (n : ℕ) (l : List α), l.length ≤ n → ∀ x ∈ strideTake stride l, x ∈ l := by
  intro n
  induction n with
  | zero =>
    intro l hl x hx
    have hnil : l = [] := List.eq_nil_of_length_eq_zero (Nat.le_zero.mp hl)
    subst hnil
    simpa [strideTake_nil] using hx
  | succ n ih =>
    intro l hl x hx
    match l with
    | [] => simpa [strideTake_nil] using hx
    | y :: ys =>
      rw [strideTake_cons] at hx
      rcases List.mem_cons.mp hx with rfl | hx'
      · exact List.mem_cons_self _ _
      · have hlen : (ys.drop (stride - 1)).length ≤ n := by
          rw [List.length_drop]
          simp only [List.length_cons] at hl
          omega
        exact List.mem_cons_of_mem _ (List.drop_subset _ _ (ih _ hlen x hx'))

lemma strideTake_length {α : Type} (stride : ℕ) (hs : 1 ≤ stride) :
    ∀ (n : ℕ) (l : List α), l.length ≤ n →
    (strideTake stride l).length = (l.length + stride - 1) / stride := by
  intro n
  induction n with
  | zero =>
    intro l hl
    have hnil : l = [] := List.eq_nil_of_length_eq_zero (Nat.le_zero.mp hl)
    subst hnil
    rw [strideTake_nil]
    simp only [List.length_nil]
    exact (Nat.div_eq_of_lt (by omega)).symm
  | succ n ih =>
    intro l hl
    match l with
    | [] =>
      rw [strideTake_nil]
      simp only [List.length_nil]
      exact (Nat.div_eq_of_lt (by omega)).symm
    | y :: ys =>
      rw [strideTake_cons, List.length_cons]
      have hlen : (ys.drop (stride - 1)).length ≤ n := by
        rw [List.length_drop]
        simp only [List.length_cons] at hl
        omega
      rw [ih _ hlen, List.length_drop, List.length_cons]
      rcases Nat.le_total (stride - 1) ys.length with hL | hL
      · have harg : ys.length - (stride - 1) + stride - 1 = ys.length := by omega
        rw [harg]
        have hrhs : ys.length + 1 + stride - 1 = ys.length + stride := by omega
        rw [hrhs, Nat.add_div_right _ (by omega)]
      · have harg : ys.length - (stride - 1) + stride - 1 = stride - 1 := by omega
        rw [harg]
        have hz : (stride - 1) / stride = 0 := Nat.div_eq_of_lt (by omega)
        rw [hz]
        have hrhs : ys.length + 1 + stride - 1 = ys.length + stride := by omega
        rw [hrhs]
        have hone : (ys.length + stride) / stride = 1 :=
          Nat.div_eq_of_lt_le (by omega) (by omega)
        omega

lemma strideTake_head {α : Type} (stride : ℕ) (x : α) (xs : List α) :
    (strideTake stride (x :: xs)).head? = some x := by
  rw [strideTake_cons]
  rfl

/-- C2 (amended): for a non-empty series whose last element is `lastS` (the
latest sample under the series' sort invariant), `trimWindow` keeps only
samples no older than `latest − windowMs`, returns at most `MAX_POINTS + 1`
samples (the re-appended last point can exceed the `MAX_POINTS` ceiling by
one), and preserves the first and last point of the time-filtered range. -/
theorem trimWindow_window_count_endpoints (samples : List NormalizedSample) (windowMs : ℚ)
    (lastS : NormalizedSample) (hlast : samples.getLast? = some lastS) :
    (∀ x ∈ trimWindow samples windowMs, lastS.timestamp - windowMs ≤ x.timestamp)
    ∧ (trimWindow samples windowMs).length ≤ MAX_POINTS + 1
    ∧ (trimWindow samples windowMs).head? =
        (samples.filter (fun s => decide (lastS.timestamp - windowMs ≤ s.timestamp))).head?
    ∧ (trimWindow samples windowMs).getLast? =
        (samples.filter (fun s => decide (lastS.timestamp - windowMs ≤ s.timestamp))).getLast? := by
  have hfilter_mem : ∀ x ∈ samples.filter
      (fun s => decide (lastS.timestamp - windowMs ≤ s.timestamp)),
      lastS.timestamp - windowMs ≤ x.timestamp := by
    intro x hx
    simpa using (List.mem_filter.mp hx).2
  set F := samples.filter (fun s => decide (lastS.timestamp - windowMs ≤ s.timestamp)) with hF
  have hunf : trimWindow samples windowMs =
      if F.length ≤ MAX_POINTS then F
      else
        if (strideTake ((F.length + (MAX_POINTS - 1)) / MAX_POINTS) F).getLast? = F.getLast?
        then strideTake ((F.length + (MAX_POINTS - 1)) / MAX_POINTS) F
        else strideTake ((F.length + (MAX_POINTS - 1)) / MAX_POINTS) F ++ F.getLast?.toList := by
    simp only [trimWindow, hlast]
  rw [hunf]
  by_cases hlen : F.length ≤ MAX_POINTS
  · rw [if_pos hlen]
    exact ⟨hfilter_mem, by omega, rfl, rfl⟩
  · rw [if_neg hlen]
    push_neg at hlen
    set stride := (F.length + (MAX_POINTS - 1)) / MAX_POINTS with hstr
    set R := strideTake stride F with hR
    have hMp : 0 < MAX_POINTS := by unfold MAX_POINTS; omega
    have hstride1 : 1 ≤ stride := by
      rw [hstr, Nat.one_le_div_iff hMp]
      omega
    have hRlen : R.length = (F.length + stride - 1) / stride :=
      strideTake_length stride hstride1 F.length F (le_refl _)
    have hFbound : F.length ≤ MAX_POINTS * stride := by
      have hdm := Nat.div_add_mod (F.length + (MAX_POINTS - 1)) MAX_POINTS
      have hmod := Nat.mod_lt (F.length + (MAX_POINTS - 1)) hMp
      rw [hstr]
      unfold MAX_POINTS at *
      omega
    have hRle : R.length ≤ MAX_POINTS := by
      rw [hRlen, Nat.div_le_iff_le_mul_add_pred (by omega)]
      have : MAX_POINTS * stride = stride * MAX_POINTS := Nat.mul_comm _ _
      omega
    have hFne : F ≠ [] := by
      intro h
      rw [h] at hlen
      simp at hlen
    obtain ⟨f0, rest, hF0⟩ := List.exists_cons_of_ne_nil hFne
    have hRhead : R.head? = F.head? := by
      rw [hR, hF0, strideTake_head, List.head?_cons]
    have hRne : R ≠ [] := by
      rw [hR, hF0, strideTake_cons]
      simp
    have hmemR : ∀ x ∈ R, x ∈ F :=
      fun x hx => strideTake_subset stride F.length F (le_refl _) x hx
    rcases hgl : F.getLast? with _ | flast
    · exact absurd (List.getLast?_eq_none_iff.mp hgl) hFne
    by_cases hif : R.getLast? = some flast
    · rw [if_pos hif]
      exact ⟨fun x hx => hfilter_mem x (hmemR x hx), by omega, hRhead, hif⟩
    · rw [if_neg hif]
      refine ⟨?_, ?_, ?_, ?_⟩
      · intro x hx
        rcases List.mem_append.mp hx with hxr | hxl
        · exact hfilter_mem x (hmemR x hxr)
        · simp only [Option.toList_some, List.mem_singleton] at hxl
          subst hxl
          exact hfilter_mem x (List.mem_of_mem_getLast? (by rw [hgl]; rfl))
      · rw [List.length_append]
        simp only [Option.toList_some, List.length_singleton]
        omega
      · rw [List.head?_append]
        obtain ⟨r0, rrest, hR0⟩ := List.exists_cons_of_ne_nil hRne
        rw [hR0, List.head?_cons]
        show some r0 = F.head?
        have : (r0 :: rrest).head? = some r0 := List.head?_cons
        rw [← this, ← hR0]
        exact hRhead
      · simp only [Option.toList_some]
        rw [List.getLast?_concat]

theorem trimWindow_window_count_endpoints_witness :
    (∀ x ∈ trimWindow [mkSample 0 0, mkSample 1000 1] 500,
        (mkSample 1000 1).timestamp - 500 ≤ x.timestamp)
    ∧ (trimWindow [mkSample 0 0, mkSample 1000 1] 500).length ≤ MAX_POINTS + 1
    ∧ (trimWindow [mkSample 0 0, mkSample 1000 1] 500).head? =
        ([mkSample 0 0, mkSample 1000 1].filter
          (fun s => decide ((mkSample 1000 1).timestamp - 500 ≤ s.timestamp))).head?
    ∧ (trimWindow [mkSample 0 0, mkSample 1000 1] 500).getLast? =
        ([mkSample 0 0, mkSample 1000 1].filter
          (fun s => decide ((mkSample 1000 1).timestamp - 500 ≤ s.timestamp))).getLast? :=
  trimWindow_window_count_endpoints [mkSample 0 0, mkSample 1000 1] 500
    (mkSample 1000 1) (by decide)

/-- A 1440-point series with distinct millisecond timestamps. -/
def c2samples : List NormalizedSample :=
  (List.range 1440).map (fun i => mkSample i 0)

set_option maxHeartbeats 4000000 in
/-- C2 counterexample: on a 1440-point series that fits entirely inside the
window, the stride is 2 and the loop keeps 720 points ending at index 1438;
the last filtered point (index 1439) is then re-appended, so `trimWindow`
returns 721 points — the configured ceiling `MAX_POINTS = 720` is exceeded. -/
theorem trimWindow_count_cex :
    MAX_POINTS < (trimWindow c2samples 10000000).length ∧
    (trimWindow c2samples 10000000).length = MAX_POINTS + 1 ∧
    c2samples.length = 1440 := by
  refine ⟨?_, ?_, ?_⟩ <;> decide

/-- C3: merging a REST session observation whose event time is strictly
older than the stored runtime's `updated-at` leaves the runtime map
unchanged, and an observation for a (valid, nonzero) connector with no prior
runtime always creates a new runtime. -/
theorem mergeSessionSnapshot_recency :
    (∀ (price maxKw : Option ℚ) (m : ℕ → Option SessionRuntime) (s : SessionObs)
        (cid : ℕ) (rt : SessionRuntime) (t1 t2 : ℚ),
        s.connectorNumber = some cid →
        m cid = some rt →
        rt.updatedAt = some t2 →
        obsEventTime s = some t1 →
        t1 < t2 →
        mergeSessionSnapshot price maxKw m s = m)
    ∧ (∀ (price maxKw : Option ℚ) (m : ℕ → Option SessionRuntime) (s : SessionObs) (cid : ℕ),
        s.connectorNumber = some cid → cid ≠ 0 → m cid = none →
        (mergeSessionSnapshot price maxKw m s cid).isSome = true) := by
  constructor
  · intro price maxKw m s cid rt t1 t2 hc hm ht2 ht1 hlt
    unfold mergeSessionSnapshot
    rw [hc]
    dsimp only
    by_cases hz : cid = 0
    · rw [if_pos hz]
    · rw [if_neg hz]
      simp only [hm]
      by_cases hA : skipByStartCheck (some rt)
          (s.started_at <|> s.created_at <|> (some rt).bind SessionRuntime.startedAt) = true
      · rw [if_pos hA]
      · rw [if_neg hA]
        have hB : skipByUpdatedCheck (some rt)
            (obsEventTime s <|> (some rt).bind SessionRuntime.updatedAt) = true := by
          rw [ht1]
          unfold skipByUpdatedCheck
          simp only [Option.some_bind, Option.some_orElse]
          rw [ht2]
          simpa using hlt
        rw [if_pos hB]
  · intro price maxKw m s cid hc hz hm
    unfold mergeSessionSnapshot
    rw [hc]
    dsimp only
    rw [if_neg hz]
    simp only [hm]
    have hA : skipByStartCheck none
        (s.started_at <|> s.created_at <|> Option.bind none SessionRuntime.startedAt) = false := rfl
    rw [if_neg (by rw [hA]; exact Bool.false_ne_true)]
    have hB : skipByUpdatedCheck none
        (obsEventTime s <|> Option.bind none SessionRuntime.updatedAt) = false := rfl
    rw [if_neg (by rw [hB]; exact Bool.false_ne_true)]
    rw [Function.update_same]
    rfl

/-- Concrete runtime and map for the recency witness. -/
def c3rt : SessionRuntime := { connectorId := 1, state := "charging", updatedAt := some 200 }

def c3map : ℕ → Option SessionRuntime := fun n => if n = 1 then some c3rt else none

def c3obs : SessionObs := { connectorNumber := some 1, updated_at := some 100 }

def c3obsNew : SessionObs := { connectorNumber := some 2, updated_at := some 100 }

theorem mergeSessionSnapshot_recency_witness :
    mergeSessionSnapshot none none c3map c3obs = c3map
    ∧ (mergeSessionSnapshot none none c3map c3obsNew 2).isSome = true :=
  ⟨mergeSessionSnapshot_recency.1 none none c3map c3obs 1 c3rt 100 200 rfl rfl rfl rfl
      (by norm_num),
    mergeSessionSnapshot_recency.2 none none c3map c3obsNew 2 rfl (by decide) rfl⟩

/-- C5 (amended): the power/current derivation order of `normalizeSample`.
A given (finite) power field wins; else power comes from delta and interval
only when the delta is defined and nonzero and the interval is defined and
positive (a zero delta falls through to the held value, unlike the claim);
else the previous power (or 0) is held.  Current, when not given, is
`power × 1000 / voltage` for positive voltage, with voltage defaulting to
400 V.  All outputs go through the 2-decimal display rounding. -/
theorem power_current_derivation_order :
    (∀ (now : ℚ) (input : RawSampleInput) (prev : Option NormalizedSample) (p : ℚ),
        input.powerKw = some (.fin p) →
        (normalizeSample now input prev).powerKw = roundTo 2 p)
    ∧ (∀ (now : ℚ) (input : RawSampleInput) (prev : Option NormalizedSample) (d i : ℚ),
        input.powerKw = none →
        derivedDeltaWh input prev = some d → d ≠ 0 →
        derivedIntervalSeconds (resolveTimestamp now input.timestamp).timestamp input prev =
          some i →
        0 < i →
        (normalizeSample now input prev).powerKw = roundTo 2 ((d / 1000) / (i / 3600)))
    ∧ (∀ (now : ℚ) (input : RawSampleInput) (prev : Option NormalizedSample),
        input.powerKw = none →
        (derivedDeltaWh input prev = none ∨ derivedDeltaWh input prev = some 0 ∨
          derivedIntervalSeconds (resolveTimestamp now input.timestamp).timestamp input prev =
            none ∨
          (∃ i, derivedIntervalSeconds (resolveTimestamp now input.timestamp).timestamp input
            prev = some i ∧ i ≤ 0)) →
        (normalizeSample now input prev).powerKw =
          roundTo 2 ((prev.map NormalizedSample.powerKw).getD 0))
    ∧ (∀ (now : ℚ) (input : RawSampleInput) (prev : Option NormalizedSample) (pq : ℚ),
        input.currentA = none →
        computedPower (resolveTimestamp now input.timestamp).timestamp input prev = .fin pq →
        0 < resolvedVoltage input →
        (normalizeSample now input prev).currentA =
          roundTo 2 (pq * 1000 / resolvedVoltage input))
    ∧ (∀ input : RawSampleInput, jsFinite input.voltageV = none →
        resolvedVoltage input = 400) := by
  refine ⟨?_, ?_, ?_, ?_, ?_⟩
  · intro now input prev p hp
    show (jsRound 2 (computedPower _ input prev)).finiteOrZero = _
    unfold computedPower
    rw [hp]
    rfl
  · intro now input prev d i hp hd hdne hi hipos
    show (jsRound 2 (computedPower _ input prev)).finiteOrZero = _
    unfold computedPower
    rw [hp, hd, hi]
    dsimp only
    rw [if_pos ⟨hdne, Ne.symm (ne_of_lt hipos), hipos⟩]
    rfl
  · intro now input prev hp hcase
    show (jsRound 2 (computedPower _ input prev)).finiteOrZero = _
    unfold computedPower
    rw [hp]
    rcases hcase with h | h | h | ⟨i, hi, hile⟩
    · rw [h]
      cases hI : derivedIntervalSeconds (resolveTimestamp now input.timestamp).timestamp
          input prev <;> rfl
    · rw [h]
      cases hI : derivedIntervalSeconds (resolveTimestamp now input.timestamp).timestamp
          input prev with
      | none => rfl
      | some i =>
        dsimp only
        rw [if_neg (by rintro ⟨h1, -, -⟩; exact h1 rfl)]
        rfl
    · rw [h]
      cases hD : derivedDeltaWh input prev <;> rfl
    · rw [hi]
      cases hD : derivedDeltaWh input prev with
      | none => rfl
      | some d =>
        dsimp only
        rw [if_neg (by rintro ⟨-, -, h3⟩; exact absurd h3 (not_lt.mpr hile))]
        rfl
  · intro now input prev pq hc hcp hv
    show (jsRound 2 (computedCurrent _ input prev)).finiteOrZero = _
    unfold computedCurrent
    rw [hc]
    dsimp only
    rw [if_pos hv, hcp]
    rfl
  · intro input hv
    unfold resolvedVoltage
    rw [hv]
    rfl

/-- Previous sample holding 5 kW with register 1000 Wh. -/
def c5prev : NormalizedSample :=
  { connectorId := 1, timestamp := 0, isoTimestamp := 0, valueWh := 1000,
    powerKw := 5, currentA := 0, energyKwh := 1 }

/-- A reading one minute later with the same register (delta 0) and an
explicit 60 s interval, and no power field. -/
def c5raw : RawSampleInput :=
  { connectorId := 1, timestamp := .num (.fin 60000), valueWh := some (.fin 1000),
    intervalSeconds := some (.fin 60) }

/-- C5 counterexample: delta-energy (0 Wh) and a positive interval (60 s) are
both available, so the claim's derivation order demands
`power = delta/interval = 0`; the code instead holds the previous sample's
5 kW, because its truthiness guard treats a zero delta as absent. -/
theorem power_derivation_zero_delta_cex :
    c5raw.powerKw = none ∧
    derivedDeltaWh c5raw (some c5prev) = some 0 ∧
    derivedIntervalSeconds 60000 c5raw (some c5prev) = some 60 ∧
    roundTo 2 (((0 : ℚ) / 1000) / ((60 : ℚ) / 3600)) = 0 ∧
    (normalizeSample 0 c5raw (some c5prev)).powerKw = 5 ∧
    (5 : ℚ) ≠ 0 := by
  refine ⟨rfl, by decide, by decide, by decide, by decide, by decide⟩

/-- A reading with a 1000 Wh delta over 60 s and no power/current fields. -/
def c5rawB : RawSampleInput :=
  { connectorId := 1, timestamp := .num (.fin 60000), valueWh := some (.fin 2000) }

theorem power_current_derivation_order_witness :
    (normalizeSample 0 { connectorId := 1, powerKw := some (.fin (15/2)) } none).powerKw =
      roundTo 2 (15 / 2)
    ∧ (normalizeSample 0 c5rawB (some c5prev)).powerKw =
      roundTo 2 ((1000 / 1000) / (60 / 3600))
    ∧ (normalizeSample 0 c5raw (some c5prev)).powerKw =
      roundTo 2 (((some c5prev).map NormalizedSample.powerKw).getD 0)
    ∧ (normalizeSample 0 c5rawB (some c5prev)).currentA =
      roundTo 2 (60 * 1000 / resolvedVoltage c5rawB)
    ∧ resolvedVoltage c5rawB = 400 := by
  refine ⟨?_, ?_, ?_, ?_, ?_⟩
  · exact power_current_derivation_order.1 0 _ none (15/2) rfl
  · exact power_current_derivation_order.2.1 0 c5rawB (some c5prev) 1000 60 rfl
      (by decide) (by decide) (by decide) (by decide)
  · exact power_current_derivation_order.2.2.1 0 c5raw (some c5prev) rfl
      (Or.inr (Or.inl (by decide)))
  · exact power_current_derivation_order.2.2.2.1 0 c5rawB (some c5prev) 60 rfl
      (by decide) (by decide)
  · exact power_current_derivation_order.2.2.2.2 c5rawB rfl

/-- Whether a raw timestamp survives `resolveTimestamp` without consulting
the clock: a finite number or a parseable string. -/
def tsGiven : TsInput → Bool
  | .num (.fin _) => true
  | .str (some _) => true
  | _ => false

/-- C6 (amended): `normalizeSample` never mutates `previous` (it is a pure
function of its arguments in this embedding), and whenever the raw reading
carries a valid timestamp the clock plays no role: two calls with identical
inputs at different times yield identical outputs. -/
theorem normalizeSample_pure_of_valid_timestamp :
    ∀ (input : RawSampleInput) (prev : Option NormalizedSample) (now1 now2 : ℚ),
    tsGiven input.timestamp = true →
    normalizeSample now1 input prev = normalizeSample now2 input prev := by
  intro input prev now1 now2 hts
  have hres : resolveTimestamp now1 input.timestamp = resolveTimestamp now2 input.timestamp := by
    rcases h : input.timestamp with v | parsed | _
    · rcases v with _ | _ | _ | q
      · rw [h] at hts; exact absurd hts (by decide)
      · rw [h] at hts; exact absurd hts (by decide)
      · rw [h] at hts; exact absurd hts (by decide)
      · rfl
    · rcases parsed with _ | p
      · rw [h] at hts; exact absurd hts (by decide)
      · rfl
    · rw [h] at hts; exact absurd hts (by decide)
  unfold normalizeSample
  rw [hres]

/-- A raw reading with no timestamp at all. -/
def c6raw : RawSampleInput := { connectorId := 1, valueWh := some (.fin 100) }

/-- C6 counterexample: with the timestamp missing, `resolveTimestamp` falls
back to `Date.now()`, so two calls with identical raw input and previous
sample but different wall-clock instants return different samples — the
function's output depends on a hidden clock input. -/
theorem normalizeSample_clock_dependence_cex :
    normalizeSample 0 c6raw none ≠ normalizeSample 1 c6raw none ∧
    (normalizeSample 0 c6raw none).timestamp = 0 ∧
    (normalizeSample 1 c6raw none).timestamp = 1 := by
  refine ⟨by decide, by decide, by decide⟩

/-- A raw reading with an explicit numeric timestamp. -/
def c6rawB : RawSampleInput :=
  { connectorId := 1, timestamp := .num (.fin 42), valueWh := some (.fin 7) }

theorem normalizeSample_pure_witness :
    normalizeSample 0 c6rawB none = normalizeSample 99 c6rawB none :=
  normalizeSample_pure_of_valid_timestamp c6rawB none 0 99 (by decide)

/-- C10: `normalizeSample` is total and NaN-free at its interface.  A missing
or non-numeric register falls back to the previous register or 0; a given
non-finite power or current field is zeroed by the final `Number.isFinite`
guard; a non-finite power also zeroes the derived current; the
power-from-delta division happens only for a positive interval (a
non-positive interval falls back to the held power) and the
current-from-power division only for a positive voltage (otherwise the
previous current or 0 is used, rounded). -/
theorem normalizeSample_total_guarded :
    (∀ (now : ℚ) (input : RawSampleInput) (prev : Option NormalizedSample),
        jsFinite input.valueWh = none →
        (normalizeSample now input prev).valueWh =
          (prev.map NormalizedSample.valueWh).getD 0)
    ∧ (∀ (now : ℚ) (input : RawSampleInput) (prev : Option NormalizedSample) (j : JsNum),
        input.powerKw = some j → j.isFinite = false →
        (normalizeSample now input prev).powerKw = 0)
    ∧ (∀ (now : ℚ) (input : RawSampleInput) (prev : Option NormalizedSample) (j : JsNum),
        input.currentA = some j → j.isFinite = false →
        (normalizeSample now input prev).currentA = 0)
    ∧ (∀ (now : ℚ) (input : RawSampleInput) (prev : Option NormalizedSample) (j : JsNum),
        input.powerKw = some j → j.isFinite = false →
        input.currentA = none → 0 < resolvedVoltage input →
        (normalizeSample now input prev).currentA = 0)
    ∧ (∀ (now : ℚ) (input : RawSampleInput) (prev : Option NormalizedSample) (d i : ℚ),
        input.powerKw = none →
        derivedDeltaWh input prev = some d →
        derivedIntervalSeconds (resolveTimestamp now input.timestamp).timestamp input prev =
          some i →
        i ≤ 0 →
        (normalizeSample now input prev).powerKw =
          roundTo 2 ((prev.map NormalizedSample.powerKw).getD 0))
    ∧ (∀ (now : ℚ) (input : RawSampleInput) (prev : Option NormalizedSample),
        input.currentA = none → resolvedVoltage input ≤ 0 →
        (normalizeSample now input prev).currentA =
          roundTo 2 ((prev.map NormalizedSample.currentA).getD 0)) := by
  refine ⟨?_, ?_, ?_, ?_, ?_, ?_⟩
  · intro now input prev hv
    show derivedValueWh input prev = _
    unfold derivedValueWh
    rw [hv]
  · intro now input prev j hp hnf
    show (jsRound 2 (computedPower _ input prev)).finiteOrZero = 0
    unfold computedPower
    rw [hp]
    rcases j with _ | _ | _ | q
    · rfl
    · rfl
    · rfl
    · exact absurd hnf (by simp [JsNum.isFinite])
  · intro now input prev j hc hnf
    show (jsRound 2 (computedCurrent _ input prev)).finiteOrZero = 0
    unfold computedCurrent
    rw [hc]
    rcases j with _ | _ | _ | q
    · rfl
    · rfl
    · rfl
    · exact absurd hnf (by simp [JsNum.isFinite])
  · intro now input prev j hp hnf hc hv
    show (jsRound 2 (computedCurrent _ input prev)).finiteOrZero = 0
    unfold computedCurrent
    rw [hc]
    dsimp only
    rw [if_pos hv]
    unfold computedPower
    rw [hp]
    rcases j with _ | _ | _ | q
    · rfl
    · rfl
    · rfl
    · exact absurd hnf (by simp [JsNum.isFinite])
  · intro now input prev d i hp hd hi hile
    show (jsRound 2 (computedPower _ input prev)).finiteOrZero = _
    unfold computedPower
    rw [hp, hd, hi]
    dsimp only
    rw [if_neg (by rintro ⟨-, -, h3⟩; exact absurd h3 (not_lt.mpr hile))]
    rfl
  · intro now input prev hc hv
    show (jsRound 2 (computedCurrent _ input prev)).finiteOrZero = _
    unfold computedCurrent
    rw [hc]
    dsimp only
    rw [if_neg (not_lt.mpr hv)]
    rfl

/-- A raw reading exercising the non-finite guards: `NaN` register,
`Infinity` power, negative voltage. -/
def c10raw : RawSampleInput :=
  { connectorId := 1, timestamp := .num (.fin 1000), valueWh := some .nan,
    powerKw := some .inf, voltageV := some (.fin (-5)) }

/-- A raw reading with `NaN` current and a zero interval. -/
def c10rawB : RawSampleInput :=
  { connectorId := 1, timestamp := .num (.fin 1000), valueWh := some (.fin 50),
    currentA := some .nan, intervalSeconds := some (.fin 0) }

theorem normalizeSample_total_guarded_witness :
    (normalizeSample 0 c10raw none).valueWh = ((none : Option NormalizedSample).map
      NormalizedSample.valueWh).getD 0
    ∧ (normalizeSample 0 c10raw none).powerKw = 0
    ∧ (normalizeSample 0 c10rawB (some c5prev)).currentA = 0
    ∧ (normalizeSample 0 c10rawB (some c5prev)).powerKw =
      roundTo 2 (((some c5prev).map NormalizedSample.powerKw).getD 0)
    ∧ (normalizeSample 0 c10raw (some c5prev)).currentA =
      roundTo 2 (((some c5prev).map NormalizedSample.currentA).getD 0) := by
  refine ⟨?_, ?_, ?_, ?_, ?_⟩
  · exact normalizeSample_total_guarded.1 0 c10raw none rfl
  · exact normalizeSample_total_guarded.2.1 0 c10raw none .inf rfl rfl
  · exact normalizeSample_total_guarded.2.2.1 0 c10rawB (some c5prev) .nan rfl rfl
  · exact normalizeSample_total_guarded.2.2.2.2.1 0 c10rawB (some c5prev) 0 0
      rfl (by decide) (by decide) (by decide)
  · exact normalizeSample_total_guarded.2.2.2.2.2 0 c10raw (some c5prev) rfl (by decide)

lemma baseDelay_pos (cfg : ChannelConfig) : 0 < baseDelay cfg :=
  lt_of_lt_of_le (by norm_num [MIN_RECONNECT_DELAY]) (le_max_right _ _)

lemma baseDelay_le_maxDelay (cfg : ChannelConfig) : baseDelay cfg ≤ maxDelay cfg :=
  le_max_right _ _

lemma maxDelay_pos (cfg : ChannelConfig) : 0 < maxDelay cfg :=
  lt_of_lt_of_le (baseDelay_pos cfg) (baseDelay_le_maxDelay cfg)

lemma mul_min_nonneg (c a b : ℚ) (hc : 0 ≤ c) : c * min a b = min (c * a) (c * b) := by
  rcases le_total a b with h | h
  · rw [min_eq_left h, min_eq_left (mul_le_mul_of_nonneg_left h hc)]
  · rw [min_eq_right h, min_eq_right (mul_le_mul_of_nonneg_left h hc)]

/-- One scheduling draw stays within ±35 % of the capped reference delay. -/
lemma scheduledDelay_bounds (cfg : ChannelConfig) (ref rand : ℚ)
    (href : 0 ≤ ref) (h0 : 0 ≤ rand) (h1 : rand ≤ 1) :
    (65/100) * min ref (maxDelay cfg) ≤ scheduledDelay cfg ref rand ∧
    scheduledDelay cfg ref rand ≤ (135/100) * min ref (maxDelay cfg) := by
  unfold scheduledDelay jitterRatio
  set dB := min ref (maxDelay cfg) with hdB
  have hdB0 : 0 ≤ dB := le_min href (le_of_lt (maxDelay_pos cfg))
  have hlow : (65/100) * dB ≤ dB + (rand * (dB * (35/100)) * 2 - dB * (35/100)) := by
    nlinarith
  have hup : dB + (rand * (dB * (35/100)) * 2 - dB * (35/100)) ≤ (135/100) * dB := by
    nlinarith
  have hmax : max 0 (dB + (rand * (dB * (35/100)) * 2 - dB * (35/100))) =
      dB + (rand * (dB * (35/100)) * 2 - dB * (35/100)) :=
    max_eq_right (le_trans (by nlinarith) hlow)
  rw [hmax]
  exact ⟨hlow, hup⟩

lemma scheduledDelay_nonneg (cfg : ChannelConfig) (ref rand : ℚ) :
    0 ≤ scheduledDelay cfg ref rand :=
  le_max_left _ _

lemma reconnectRefAt_nonneg (cfg : ChannelConfig) (rand : ℕ → ℚ) :
    ∀ n, 0 ≤ reconnectRefAt cfg rand n := by
  intro n
  cases n with
  | zero => exact le_of_lt (baseDelay_pos cfg)
  | succ n =>
    show 0 ≤ min _ _
    exact le_min (by
      have := scheduledDelay_nonneg cfg (reconnectRefAt cfg rand n) (rand n)
      nlinarith) (le_of_lt (maxDelay_pos cfg))

/-- With the jitter draw at its midpoint the scheduled delay is exactly the
capped reference. -/
lemma scheduledDelay_half (cfg : ChannelConfig) (ref : ℚ) (href : 0 ≤ ref) :
    scheduledDelay cfg ref (1/2) = min ref (maxDelay cfg) := by
  unfold scheduledDelay jitterRatio
  dsimp only
  have hdB0 : 0 ≤ min ref (maxDelay cfg) := le_min href (le_of_lt (maxDelay_pos cfg))
  have harg : min ref (maxDelay cfg) +
      ((1/2) * (min ref (maxDelay cfg) * (35/100)) * 2 - min ref (maxDelay cfg) * (35/100)) =
      min ref (maxDelay cfg) := by ring
  rw [harg, max_eq_right hdB0]

lemma reconnectRef_half (cfg : ChannelConfig) :
    ∀ n, min (reconnectRefAt cfg (fun _ => 1/2) n) (maxDelay cfg) =
      min (baseDelay cfg * 2 ^ n) (maxDelay cfg) := by
  intro n
  induction n with
  | zero =>
    show min (baseDelay cfg) (maxDelay cfg) = _
    norm_num
  | succ n ih =>
    show min (nextReconnectRef cfg
      (scheduledDelay cfg (reconnectRefAt cfg (fun _ => 1/2) n) (1/2))) (maxDelay cfg) = _
    rw [scheduledDelay_half cfg _ (reconnectRefAt_nonneg cfg _ n)]
    unfold nextReconnectRef
    rw [min_assoc, min_self, ih]
    have hdistr : min (baseDelay cfg * 2 ^ n) (maxDelay cfg) * 2 =
        min (baseDelay cfg * 2 ^ n * 2) (maxDelay cfg * 2) := by
      rw [mul_comm, mul_min_nonneg 2 _ _ (by norm_num)]
      ring_nf
    rw [hdistr, min_assoc]
    have hCC : min (maxDelay cfg * 2) (maxDelay cfg) = maxDelay cfg :=
      min_eq_right (by nlinarith [maxDelay_pos cfg])
    rw [hCC]
    ring_nf

/-- C7 (amended): across `N` consecutive failures the jitter compounds —
the `N`-th scheduled delay lies in the product band
`[0.65^N · min-free lower bound, 1.35^N · upper bound]` capped by the
ceiling, rather than within a single ±35 % band around
`min(B·2^(N-1), C)`; with the jitter draw at its midpoint the delay is
exactly `min(B·2^(N-1), C)`; and a successful open resets the backoff
reference to the base delay.  (`n` is zero-based: `n = N − 1`.) -/
theorem backoff_compounded_band :
    (∀ (cfg : ChannelConfig) (rand : ℕ → ℚ),
        (∀ k, 0 ≤ rand k ∧ rand k ≤ 1) →
        ∀ n : ℕ,
        min ((65/100) ^ (n+1) * (baseDelay cfg * 2 ^ n)) ((65/100) * maxDelay cfg) ≤
          nthScheduledDelay cfg rand n ∧
        nthScheduledDelay cfg rand n ≤
          min ((135/100) ^ (n+1) * (baseDelay cfg * 2 ^ n)) ((135/100) * maxDelay cfg))
    ∧ (∀ (cfg : ChannelConfig) (n : ℕ),
        nthScheduledDelay cfg (fun _ => 1/2) n = min (baseDelay cfg * 2 ^ n) (maxDelay cfg))
    ∧ (∀ (cfg : ChannelConfig) (ref : ℚ), onOpenReset cfg ref = baseDelay cfg) := by
  refine ⟨?_, ?_, ?_⟩
  · intro cfg rand hr n
    induction n with
    | zero =>
      have hb := scheduledDelay_bounds cfg (baseDelay cfg) (rand 0)
        (le_of_lt (baseDelay_pos cfg)) (hr 0).1 (hr 0).2
      have hminB : min (baseDelay cfg) (maxDelay cfg) = baseDelay cfg :=
        min_eq_left (baseDelay_le_maxDelay cfg)
      rw [hminB] at hb
      constructor
      · refine le_trans (min_le_left _ _) ?_
        have : (65/100 : ℚ) ^ (0+1) * (baseDelay cfg * 2 ^ 0) = 65/100 * baseDelay cfg := by
          ring
        rw [this]
        exact hb.1
      · refine le_trans hb.2 (le_min ?_ ?_)
        · have : (135/100 : ℚ) ^ (0+1) * (baseDelay cfg * 2 ^ 0) =
              135/100 * baseDelay cfg := by ring
          rw [this]
        · exact mul_le_mul_of_nonneg_left (baseDelay_le_maxDelay cfg) (by norm_num)
    | succ n ih =>
      have hDn0 : 0 ≤ nthScheduledDelay cfg rand n := scheduledDelay_nonneg cfg _ _
      have hC0 : 0 ≤ maxDelay cfg := le_of_lt (maxDelay_pos cfg)
      have hb := scheduledDelay_bounds cfg (reconnectRefAt cfg rand (n+1)) (rand (n+1))
        (reconnectRefAt_nonneg cfg rand (n+1)) (hr (n+1)).1 (hr (n+1)).2
      have hrefmin : min (reconnectRefAt cfg rand (n+1)) (maxDelay cfg) =
          min (nthScheduledDelay cfg rand n * 2) (maxDelay cfg) := by
        show min (nextReconnectRef cfg (nthScheduledDelay cfg rand n)) (maxDelay cfg) = _
        unfold nextReconnectRef
        rw [min_assoc, min_self]
      rw [hrefmin] at hb
      constructor
      · refine le_trans ?_ hb.1
        rw [mul_min_nonneg (65/100) _ _ (by norm_num)]
        refine le_min ?_ ?_
        · have hih := ih.1
          have h13 : (13/10 : ℚ) * min ((65/100) ^ (n+1) * (baseDelay cfg * 2 ^ n))
              ((65/100) * maxDelay cfg) ≤ 13/10 * nthScheduledDelay cfg rand n :=
            mul_le_mul_of_nonneg_left hih (by norm_num)
          rw [mul_min_nonneg (13/10) _ _ (by norm_num)] at h13
          refine le_trans (le_min ?_ ?_) (le_trans h13 (le_of_eq (by ring)))
          · have : (13/10 : ℚ) * ((65/100) ^ (n+1) * (baseDelay cfg * 2 ^ n)) =
                (65/100) ^ (n+1+1) * (baseDelay cfg * 2 ^ (n+1)) := by ring
            rw [← this]
            exact min_le_left _ _
          · refine le_trans (min_le_right _ _) ?_
            nlinarith
        · exact min_le_right _ _
      · refine le_trans hb.2 ?_
        rw [mul_min_nonneg (135/100) _ _ (by norm_num)]
        refine le_min ?_ ?_
        · refine le_trans (min_le_left _ _) ?_
          have hih := ih.2
          have h27 : (135/100 : ℚ) * (nthScheduledDelay cfg rand n * 2) ≤
              135/100 * (min ((135/100) ^ (n+1) * (baseDelay cfg * 2 ^ n))
                ((135/100) * maxDelay cfg) * 2) := by
            nlinarith
          refine le_trans h27 ?_
          have : (135/100 : ℚ) * (min ((135/100) ^ (n+1) * (baseDelay cfg * 2 ^ n))
              ((135/100) * maxDelay cfg) * 2) ≤
              135/100 * ((135/100) ^ (n+1) * (baseDelay cfg * 2 ^ n) * 2) := by
            have := min_le_left ((135/100 : ℚ) ^ (n+1) * (baseDelay cfg * 2 ^ n))
              ((135/100) * maxDelay cfg)
            nlinarith
          refine le_trans this (le_of_eq ?_)
          ring
        · exact le_trans (min_le_right _ _) (le_refl _)
  · intro cfg n
    show scheduledDelay cfg (reconnectRefAt cfg (fun _ => 1/2) n) (1/2) = _
    rw [scheduledDelay_half cfg _ (reconnectRefAt_nonneg cfg _ n)]
    exact reconnectRef_half cfg n
  · intro cfg ref
    rfl

/-- Base delay 1000 ms, ceiling 100000 ms. -/
def c7cfg : ChannelConfig := { reconnectDelayMs := some 1000, maxReconnectDelayMs := some 100000 }

/-- C7 counterexample: with two consecutive high jitter draws (0.93, within
`[0,1)`) the second scheduled delay is 3385.202 ms, outside the claimed
single ±35 % band around `min(B·2^(N-1), C) = 2000` (upper edge 2700 ms):
the doubled reference carries the first draw's jitter, so jitter compounds. -/
theorem backoff_band_cex :
    (0 : ℚ) ≤ 93/100 ∧ (93 : ℚ)/100 < 1 ∧
    nthScheduledDelay c7cfg (fun _ => 93/100) 1 = 3385202/1000 ∧
    135/100 * min (baseDelay c7cfg * 2 ^ 1) (maxDelay c7cfg) <
      nthScheduledDelay c7cfg (fun _ => 93/100) 1 := by
  refine ⟨by norm_num, by norm_num, by decide, by decide⟩

theorem backoff_compounded_band_witness :
    ((0 : ℚ) ≤ 1/2 ∧ (1/2 : ℚ) ≤ 1)
    ∧ (min ((65/100) ^ (2+1) * (baseDelay c7cfg * 2 ^ 2)) ((65/100) * maxDelay c7cfg) ≤
        nthScheduledDelay c7cfg (fun _ => 1/2) 2 ∧
      nthScheduledDelay c7cfg (fun _ => 1/2) 2 ≤
        min ((135/100) ^ (2+1) * (baseDelay c7cfg * 2 ^ 2)) ((135/100) * maxDelay c7cfg))
    ∧ nthScheduledDelay c7cfg (fun _ => 1/2) 3 = min (baseDelay c7cfg * 2 ^ 3) (maxDelay c7cfg)
    ∧ onOpenReset c7cfg 5000 = baseDelay c7cfg :=
  ⟨⟨by norm_num, by norm_num⟩,
    backoff_compounded_band.1 c7cfg (fun _ => 1/2) (fun _ => ⟨by norm_num, by norm_num⟩) 2,
    backoff_compounded_band.2.1 c7cfg 3,
    backoff_compounded_band.2.2 c7cfg 5000⟩

/-- C8 (amended): an authorization-failure close (not manually initiated)
invokes the unauthorized callback instead of the generic reconnect path; if
the refresh explicitly declines — returning `false` synchronously or
resolving its promise to `false` — no reconnect is scheduled and the channel
stays in the terminal `closed` state; a rejected refresh promise, however,
falls into `.catch(() => triggerReconnect())` and schedules a reconnect. -/
theorem auth_close_refresh_behavior :
    (∀ (ctx : CloseContext) (e : WsCloseEvent) (outcome : RefreshOutcome),
        ctx.manualClose = false → isUnauthorizedEvent e = true → outcome ≠ .noHandler →
        (handleClose ctx e outcome).handlerInvoked = true)
    ∧ (∀ (ctx : CloseContext) (e : WsCloseEvent),
        ctx.manualClose = false → isUnauthorizedEvent e = true →
        (handleClose ctx e (.syncBool false)).reconnectScheduled = false ∧
        (handleClose ctx e (.syncBool false)).status = .closed ∧
        (handleClose ctx e (.asyncResolved (some false))).reconnectScheduled = false ∧
        (handleClose ctx e (.asyncResolved (some false))).status = .closed)
    ∧ (∀ (ctx : CloseContext) (e : WsCloseEvent),
        ctx.manualClose = false → isUnauthorizedEvent e = true →
        (handleClose ctx e .asyncRejected).reconnectScheduled = scheduleReconnectFires ctx) := by
  refine ⟨?_, ?_, ?_⟩
  · intro ctx e outcome hm he hnh
    unfold handleClose
    rw [if_neg (by simp [hm]), if_pos he]
    cases outcome with
    | noHandler => exact absurd rfl hnh
    | syncBool b => cases b <;> rfl
    | syncUndefined => rfl
    | asyncResolved v =>
      rcases v with _ | b
      · rfl
      · cases b <;> rfl
    | asyncRejected => rfl
  · intro ctx e hm he
    unfold handleClose
    rw [if_neg (by simp [hm]), if_pos he]
    exact ⟨rfl, rfl, rfl, rfl⟩
  · intro ctx e hm he
    unfold handleClose
    rw [if_neg (by simp [hm]), if_pos he]

/-- Default close context: not manual, auto-reconnect on, no pending timer. -/
def c8ctx : CloseContext := {}

/-- A 4401 authorization-failure close event. -/
def c8ev : WsCloseEvent := { hasCode := true, code := 4401 }

/-- C8 counterexample: when the refresh promise rejects, the code's
`.catch(() => triggerReconnect())` schedules a reconnect — the channel does
not remain terminally closed as the claim states for a failed refresh. -/
theorem auth_close_reject_reconnects_cex :
    isUnauthorizedEvent c8ev = true ∧
    (handleClose c8ctx c8ev .asyncRejected).reconnectScheduled = true ∧
    (handleClose c8ctx c8ev .asyncRejected).handlerInvoked = true := by
  decide

theorem auth_close_refresh_behavior_witness :
    (handleClose c8ctx c8ev (.syncBool true)).handlerInvoked = true
    ∧ (handleClose c8ctx c8ev (.syncBool false)).reconnectScheduled = false
    ∧ (handleClose c8ctx c8ev (.syncBool false)).status = .closed
    ∧ (handleClose c8ctx c8ev (.asyncResolved (some false))).reconnectScheduled = false
    ∧ (handleClose c8ctx c8ev (.asyncResolved (some false))).status = .closed
    ∧ (handleClose c8ctx c8ev .asyncRejected).reconnectScheduled = scheduleReconnectFires c8ctx := by
  have h1 := auth_close_refresh_behavior.1 c8ctx c8ev (.syncBool true) rfl (by decide)
    (by intro h; cases h)
  have h2 := auth_close_refresh_behavior.2.1 c8ctx c8ev rfl (by decide)
  have h3 := auth_close_refresh_behavior.2.2 c8ctx c8ev rfl (by decide)
  exact ⟨h1, h2.1, h2.2.1, h2.2.2.1, h2.2.2.2, h3⟩

lemma handleMeterSample_frozen (now : ℚ) (st : EngineState) (p : MeterSamplePayload) :
    (handleMeterSample now st p).frozenConnectors = st.frozenConnectors := by
  unfold handleMeterSample
  dsimp only
  repeat' split
  all_goals rfl

lemma handleSessionStarted_frozen (now : ℚ) (price : Option ℚ) (st : EngineState)
    (p : SessionStartPayload) :
    (handleSessionStarted now price st p).frozenConnectors =
      if p.connectorId = 0 then st.frozenConnectors
      else st.frozenConnectors.erase p.connectorId := by
  unfold handleSessionStarted
  split
  · rfl
  · rfl

lemma hydrateConnectorHistoryReq_frozen (st : EngineState) (cid : ℕ) (t : Option String) :
    (hydrateConnectorHistoryReq st cid t).frozenConnectors = st.frozenConnectors := by
  unfold hydrateConnectorHistoryReq
  repeat' split
  all_goals rfl

lemma sessionStoppedCore_frozen (now : ℚ) (st : EngineState) (p : SessionStopPayload) :
    (sessionStoppedCore now st p).frozenConnectors =
      st.frozenConnectors.insert p.connectorId := by
  unfold sessionStoppedCore
  dsimp only
  repeat' split
  all_goals rfl

lemma handleSessionStopped_frozen (now : ℚ) (st : EngineState) (p : SessionStopPayload) :
    (handleSessionStopped now st p).frozenConnectors =
      if p.connectorId = 0 then st.frozenConnectors
      else st.frozenConnectors.insert p.connectorId := by
  unfold handleSessionStopped
  split
  · rfl
  · rw [hydrateConnectorHistoryReq_frozen, sessionStoppedCore_frozen]

lemma handleSimulatorStateConnected_frozen (st : EngineState) (connected : Bool)
    (cid : ℕ) (hmem : st.frozenConnectors.contains cid = true)
    (hout : (handleSimulatorStateConnected st connected).frozenConnectors.contains cid = false) :
    connected = true := by
  unfold handleSimulatorStateConnected at hout
  cases hstage : st.resetFlowStage with
  | none =>
    rw [hstage] at hout
    rw [hmem] at hout
    cases hout
  | some stage =>
    rw [hstage] at hout
    dsimp only at hout
    by_cases h1 : connected = false ∧ stage = "requested"
    · rw [if_pos h1] at hout
      dsimp only at hout
      rw [hmem] at hout
      cases hout
    · rw [if_neg h1] at hout
      by_cases h2 : connected = true ∧ stage ≠ "reconnected"
      · exact h2.1
      · rw [if_neg h2] at hout
        rw [hmem] at hout
        cases hout

lemma handleMeterSample_frozen_guard (now : ℚ) (st : EngineState) (p : MeterSamplePayload)
    (h : st.frozenConnectors.contains p.connectorId = true) :
    handleMeterSample now st p = st := by
  unfold handleMeterSample
  dsimp only
  repeat' split
  all_goals first
    | rfl
    | exact absurd h (by assumption)

lemma handleMeterSample_completed_guard (now : ℚ) (st : EngineState) (p : MeterSamplePayload)
    (rt : SessionRuntime) (hrt : st.sessionsByConnector p.connectorId = some rt)
    (hst : rt.state = "completed") :
    handleMeterSample now st p = st := by
  have hany : (st.sessionsByConnector p.connectorId).any
      (fun r => decide (r.state = "completed")) = true := by
    rw [hrt]
    simp [hst]
  unfold handleMeterSample
  dsimp only
  repeat' split
  all_goals first
    | rfl
    | exact absurd hany (by assumption)

lemma sessionStoppedCore_pending (now : ℚ) (st : EngineState) (p : SessionStopPayload) :
    (sessionStoppedCore now st p).pendingHistoryFetches = st.pendingHistoryFetches := by
  unfold sessionStoppedCore
  dsimp only
  repeat' split
  all_goals rfl

lemma sessionStoppedCore_issued (now : ℚ) (st : EngineState) (p : SessionStopPayload) :
    (sessionStoppedCore now st p).issuedHistoryFetches = st.issuedHistoryFetches := by
  unfold sessionStoppedCore
  dsimp only
  repeat' split
  all_goals rfl

lemma hydrateConnectorHistoryReq_issued (st : EngineState) (cid : ℕ) (tx : String)
    (hcid : cid ≠ 0) (hne : tx ≠ "")
    (hpend : st.pendingHistoryFetches.contains (cid, tx) = false) :
    (hydrateConnectorHistoryReq st cid (some tx)).issuedHistoryFetches =
      st.issuedHistoryFetches ++ [(cid, tx)] := by
  unfold hydrateConnectorHistoryReq
  rw [if_neg hcid]
  dsimp only
  rw [if_neg hne, if_neg (by intro hcon; rw [hcon] at hpend; cases hpend)]

/-- C9 (amended): (a) a `meter.sample` frame for a frozen connector, or for
a connector whose runtime is `completed`, leaves the engine state entirely
unchanged — in particular nothing is appended to the live rolling window;
(b) a valid `session.stopped` frame with a resolvable, non-empty transaction
id and no pending fetch for the same key issues exactly one back-fill read
against REST history and freezes the connector; (c) a frozen flag is cleared
only by a `session.started` frame for that connector or by a
`simulator.state` connected frame (the reset-flow wipe that clears all
telemetry state) — not by `session.started` alone as the claim states. -/
theorem freeze_on_completion :
    (∀ (now : ℚ) (st : EngineState) (p : MeterSamplePayload),
        st.frozenConnectors.contains p.connectorId = true →
        handleMeterSample now st p = st)
    ∧ (∀ (now : ℚ) (st : EngineState) (p : MeterSamplePayload) (rt : SessionRuntime),
        st.sessionsByConnector p.connectorId = some rt → rt.state = "completed" →
        handleMeterSample now st p = st)
    ∧ (∀ (now : ℚ) (st : EngineState) (p : SessionStopPayload) (tx : String),
        p.connectorId ≠ 0 → stopHistoryTransaction st p = some tx → tx ≠ "" →
        st.pendingHistoryFetches.contains (p.connectorId, tx) = false →
        (handleSessionStopped now st p).issuedHistoryFetches =
          st.issuedHistoryFetches ++ [(p.connectorId, tx)] ∧
        (handleSessionStopped now st p).frozenConnectors.contains p.connectorId = true)
    ∧ (∀ (now : ℚ) (price : Option ℚ) (st : EngineState) (ev : SimEvent) (cid : ℕ),
        st.frozenConnectors.contains cid = true →
        (handleSimulatorEvent now price st ev).frozenConnectors.contains cid = false →
        ev.isSessionStartedFor cid = true ∨ ev.isConnectedStateFrame = true) := by
  refine ⟨?_, ?_, ?_, ?_⟩
  · intro now st p h
    exact handleMeterSample_frozen_guard now st p h
  · intro now st p rt hrt hst
    exact handleMeterSample_completed_guard now st p rt hrt hst
  · intro now st p tx hcid htx hne hpend
    constructor
    · unfold handleSessionStopped
      rw [if_neg hcid, htx]
      rw [hydrateConnectorHistoryReq_issued _ _ _ hcid hne
        (by rw [sessionStoppedCore_pending]; exact hpend)]
      rw [sessionStoppedCore_issued]
    · rw [handleSessionStopped_frozen, if_neg hcid]
      exact List.elem_iff.mpr (List.mem_insert_self _ _)
  · intro now price st ev cid hmem hout
    cases ev with
    | meterSample p =>
      exfalso
      rw [show handleSimulatorEvent now price st (.meterSample p) = handleMeterSample now st p
        from rfl, handleMeterSample_frozen, hmem] at hout
      cases hout
    | sessionStarted p =>
      left
      show (p.connectorId == cid) = true
      rw [show handleSimulatorEvent now price st (.sessionStarted p) =
        handleSessionStarted now price st p from rfl, handleSessionStarted_frozen] at hout
      by_cases h0 : p.connectorId = 0
      · rw [if_pos h0, hmem] at hout
        cases hout
      · rw [if_neg h0] at hout
        by_cases hcc : p.connectorId = cid
        · simp [hcc]
        · exfalso
          have hm : cid ∈ st.frozenConnectors := List.elem_iff.mp hmem
          have hin : cid ∈ st.frozenConnectors.erase p.connectorId :=
            (List.mem_erase_of_ne (fun h => hcc h.symm)).mpr hm
          have hct : (st.frozenConnectors.erase p.connectorId).contains cid = true :=
            List.elem_iff.mpr hin
          rw [hct] at hout
          cases hout
    | sessionStopped p =>
      exfalso
      rw [show handleSimulatorEvent now price st (.sessionStopped p) =
        handleSessionStopped now st p from rfl, handleSessionStopped_frozen] at hout
      by_cases h0 : p.connectorId = 0
      · rw [if_pos h0, hmem] at hout
        cases hout
      · rw [if_neg h0] at hout
        have hm : cid ∈ st.frozenConnectors := List.elem_iff.mp hmem
        have hct : (st.frozenConnectors.insert p.connectorId).contains cid = true :=
          List.elem_iff.mpr (List.mem_insert_of_mem hm)
        rw [hct] at hout
        cases hout
    | simulatorState c =>
      rcases c with _ | b
      · exfalso
        rw [show handleSimulatorEvent now price st (.simulatorState none) = st from rfl,
          hmem] at hout
        cases hout
      · right
        have hb : b = true := handleSimulatorStateConnected_frozen st b cid hmem hout
        rw [hb]
        rfl
    | otherEvent =>
      exfalso
      rw [show handleSimulatorEvent now price st .otherEvent = st from rfl, hmem] at hout
      cases hout

/-- An engine state with connector 1 frozen and a reset flow in progress. -/
def c9state : EngineState :=
  { meterTimelines := fun _ => none
    sessionsByConnector := fun _ => none
    frozenConnectors := [1]
    pendingHistoryFetches := []
    issuedHistoryFetches := []
    resetFlowStage := some "rebooting" }

/-- C9 counterexample: a `simulator.state` connected frame during a reset
flow clears the frozen flag of connector 1 even though no `session.started`
event for that connector occurred — the frozen flag is not cleared *only* by
`session.started`. -/
theorem frozen_cleared_by_reset_cex :
    c9state.frozenConnectors.contains 1 = true ∧
    (handleSimulatorEvent 0 none c9state
      (.simulatorState (some true))).frozenConnectors.contains 1 = false ∧
    SimEvent.isSessionStartedFor (.simulatorState (some true)) 1 = false := by
  refine ⟨rfl, by decide, rfl⟩

/-- A completed runtime for connector 1 carrying transaction TX-1. -/
def c9rt : SessionRuntime :=
  { connectorId := 1, state := "completed", transactionId := some "TX-1" }

/-- An engine state whose connector 1 runtime is completed. -/
def c9stateB : EngineState :=
  { meterTimelines := fun _ => none
    sessionsByConnector := fun n => if n = 1 then some c9rt else none
    frozenConnectors := []
    pendingHistoryFetches := []
    issuedHistoryFetches := []
    resetFlowStage := none }

/-- A telemetry frame for connector 1. -/
def c9meterP : MeterSamplePayload :=
  { connectorId := 1, valueWh := some (.fin 500), sampleTimestamp := some 1000 }

/-- A stop frame for connector 1. -/
def c9stopP : SessionStopPayload :=
  { connectorId := 1, meterStopWh := some (.fin 900), endedAt := some 2000 }

/-- A start frame for connector 1. -/
def c9startP : SessionStartPayload :=
  { connectorId := 1, transactionId := some "TX-2", startedAt := some 3000 }

theorem freeze_on_completion_witness :
    handleMeterSample 0 c9state c9meterP = c9state
    ∧ handleMeterSample 0 c9stateB c9meterP = c9stateB
    ∧ (handleSessionStopped 0 c9stateB c9stopP).issuedHistoryFetches =
        c9stateB.issuedHistoryFetches ++ [(1, "TX-1")]
    ∧ (handleSessionStopped 0 c9stateB c9stopP).frozenConnectors.contains 1 = true
    ∧ (SimEvent.isSessionStartedFor (.sessionStarted c9startP) 1 = true ∨
        SimEvent.isConnectedStateFrame (.sessionStarted c9startP) = true) := by
  have h1 := freeze_on_completion.1 0 c9state c9meterP rfl
  have h2 := freeze_on_completion.2.1 0 c9stateB c9meterP c9rt rfl rfl
  have h3 := freeze_on_completion.2.2.1 0 c9stateB c9stopP "TX-1" (by decide) rfl
    (by decide) rfl
  have h4 := freeze_on_completion.2.2.2 0 none c9state (.sessionStarted c9startP) 1
    rfl (by decide)
  exact ⟨h1, h2, h3.1, h3.2, h4⟩
